import Mathlib

/-!
# slock-mod (`lock.c`): a shallow embedding

The program talks to three outside parties: the X server (through Xlib), the
C library (`malloc`, `crypt`, `strcmp`, `memcpy`, `iscntrl`) and the password
database.  Everything they decide is an input of the model; every call the
program makes to them is recorded, in order, in a list of `Call`s.

Conventions.
* A byte is a `Nat` below 256.  A C string is the list of its bytes up to, and
  without, the terminating NUL.
* `int len`, `int num`, `int count`, `int nlocks` stay far below `2^31` on every
  path, so they are `Nat`s.  The parameter `screen` of `lockscreen` is compared
  with `0`, so it is an `Int`.
* A computation that dereferences a null pointer or writes outside an array has
  no defined result; it yields `none` (or `Loop.fault`, `Outcome.fault`).
-/

namespace Slock

/-! ## Key symbols (`X11/keysymdef.h`) and key classes (`X11/Xutil.h`) -/

def XK_BackSpace : Nat := 0xff08
def XK_Return : Nat := 0xff0d
def XK_Escape : Nat := 0xff1b
def XK_Select : Nat := 0xff60
def XK_Break : Nat := 0xff6b
def XK_KP_Space : Nat := 0xff80
def XK_KP_Enter : Nat := 0xff8d
def XK_KP_F1 : Nat := 0xff91
def XK_KP_F4 : Nat := 0xff94
def XK_KP_Equal : Nat := 0xffbd
def XK_KP_0 : Nat := 0xffb0
def XK_KP_9 : Nat := 0xffb9
def XK_F1 : Nat := 0xffbe
def XK_F35 : Nat := 0xffe0
def XK_0 : Nat := 0x0030
def XK_9 : Nat := 0x0039

/-- The macro `IsKeypadKey` of `X11/Xutil.h`. -/
def IsKeypadKey (keysym : Nat) : Bool :=
  decide (XK_KP_Space ≤ keysym) && decide (keysym ≤ XK_KP_Equal)

/-- The macro `IsPrivateKeypadKey` of `X11/Xutil.h`. -/
def IsPrivateKeypadKey (keysym : Nat) : Bool :=
  decide (0x11000000 ≤ keysym) && decide (keysym ≤ 0x1100FFFF)

/-- The macro `IsPFKey` of `X11/Xutil.h`. -/
def IsPFKey (keysym : Nat) : Bool :=
  decide (XK_KP_F1 ≤ keysym) && decide (keysym ≤ XK_KP_F4)

/-- The macro `IsFunctionKey` of `X11/Xutil.h`. -/
def IsFunctionKey (keysym : Nat) : Bool :=
  decide (XK_F1 ≤ keysym) && decide (keysym ≤ XK_F35)

/-- The macro `IsMiscFunctionKey` of `X11/Xutil.h`. -/
def IsMiscFunctionKey (keysym : Nat) : Bool :=
  decide (XK_Select ≤ keysym) && decide (keysym ≤ XK_Break)

/-! ## C library -/

/-- The function `iscntrl` in the "C" locale (the program never calls
`setlocale`): the bytes below 32 and the byte 127. -/
def iscntrl (c : Nat) : Bool :=
  decide (c < 32) || decide (c = 127)

/-- The C string that starts at the first byte of an array: the bytes before
the first NUL. -/
def cstr (p : List Nat) : List Nat :=
  p.takeWhile (fun b => decide (b ≠ 0))

/-- The function `strcmp` on two C strings, up to the sign of its result. -/
def strcmp : List Nat → List Nat → Int
  | [], [] => 0
  | [], _ :: _ => -1
  | _ :: _, [] => 1
  | a :: as, b :: bs => if a = b then strcmp as bs else if a < b then -1 else 1

/-- The call `memcpy(dest + off, src, n)`: the `n` bytes of `dest` from offset
`off` on are replaced by the first `n` bytes of `src`. -/
def memcpy (dest : List Nat) (off : Nat) (src : List Nat) (n : Nat) : List Nat :=
  dest.take off ++ src.take n ++ dest.drop (off + n)

/-! ## Data model -/

/-- The struct `Lock`. -/
structure Lock where
  root : Nat
  win : Nat
  screen : Int
deriving DecidableEq, Repr

/-- A call to the outside world, with what it was given and, for the grabs,
what it answered (`ok` is `GrabSuccess`). -/
inductive Call where
  | XCreateWindow (root win : Nat)
  | XMapRaised (win : Nat)
  | XGrabPointer (root : Nat) (ok : Bool)
  | XGrabKeyboard (root : Nat) (ok : Bool)
  | XSelectInput (root : Nat)
  | XUngrabPointer
  | XDestroyWindow (win : Nat)
  | freeLock (lock : Lock)
  | freeLocks
  | XNextEvent
  | crypt (key : List Nat)
  | XBell
  | XRaiseWindow (win : Nat)
  | XCloseDisplay
  | fputs (errstr : String)
deriving DecidableEq, Repr

/-- The calls that only `readpw` makes. -/
def Call.fromReadpw : Call → Bool
  | Call.XNextEvent => true
  | Call.crypt _ => true
  | Call.XBell => true
  | Call.XRaiseWindow _ => true
  | _ => false

/-- An event as `readpw` sees it.  For a `KeyPress`, `ksym` and `text` are what
`XLookupString` stores in `ksym` and in `buf`; its return value `num` is the
length of `text`, at most 32, the size of `buf`. -/
inductive XEvent where
  | KeyPress (ksym : Nat) (text : List Nat)
  | Other
deriving DecidableEq, Repr

/-- One call of `XNextEvent`: it returns 0 and delivers an event, or it returns
something else. -/
inductive NextEvent where
  | delivered (ev : XEvent)
  | failed
deriving DecidableEq, Repr

/-- The size of `char pass[256]`. -/
def sizeof_pass : Nat := 256

/-- The locals of `readpw` that live across iterations, and the calls made so
far. -/
structure PwState where
  pass : List Nat
  len : Nat
  running : Bool
  trace : List Call
deriving DecidableEq, Repr

/-- The entry buffer: the first `len` bytes of `pass`. -/
def PwState.entry (s : PwState) : List Nat :=
  s.pass.take s.len

/-! ## `readpw` -/

/-- Lines 196-202: keypad Enter and keypad digits are replaced by the main
keys. -/
def normalise (ksym : Nat) : Nat :=
  if IsKeypadKey ksym then
    if ksym = XK_KP_Enter then XK_Return
    else if XK_KP_0 ≤ ksym ∧ ksym ≤ XK_KP_9 then (ksym - XK_KP_0) + XK_0
    else ksym
  else ksym

/-- Lines 204-206: the condition of the `continue`. -/
def ignored (ksym : Nat) : Bool :=
  IsFunctionKey ksym || IsKeypadKey ksym || IsMiscFunctionKey ksym || IsPFKey ksym
    || IsPrivateKeypadKey ksym

/-- Lines 193-237: the body of the loop for a `KeyPress` event. -/
def keyPress (crypt : List Nat → List Nat → List Nat) (pws : List Nat) (s : PwState)
    (ksym0 : Nat) (text : List Nat) : Option PwState :=
  let num := text.length
  let buf0 := text.headD 0
  let ksym := normalise ksym0
  if ignored ksym then some s
  else if ksym = XK_Return then
    if s.len < sizeof_pass then
      let pass := s.pass.set s.len 0
      let running := decide (strcmp (crypt (cstr pass) pws) pws ≠ 0)
      some { pass := pass, len := 0, running := running,
             trace := s.trace ++ [Call.crypt (cstr pass)] ++ (if running then [Call.XBell] else []) }
    else none
  else if ksym = XK_Escape then some { s with len := 0 }
  else if ksym = XK_BackSpace then
    if s.len ≠ 0 then some { s with len := s.len - 1 } else some s
  else if num ≠ 0 ∧ iscntrl buf0 = false ∧ s.len + num < sizeof_pass then
    some { s with pass := memcpy s.pass s.len text num, len := s.len + num }
  else some s

/-- Lines 239-240: the calls of the first `screen` iterations of the loop that
raises the windows; `none` when one of them dereferences a null `locks[i]`. -/
def raiseWindows (locks : List (Option Lock)) : Nat → Option (List Call)
  | 0 => some []
  | screen + 1 =>
    match raiseWindows locks screen, locks.get? screen with
    | some t, some (some lock) => some (t ++ [Call.XRaiseWindow lock.win])
    | _, _ => none

/-- Lines 191-240: the body of the loop for one delivered event. -/
def step (crypt : List Nat → List Nat → List Nat) (locks : List (Option Lock)) (nscreens : Nat)
    (pws : List Nat) (s : PwState) : XEvent → Option PwState
  | XEvent.KeyPress ksym text => keyPress crypt pws s ksym text
  | XEvent.Other =>
    match raiseWindows locks nscreens with
    | some t => some { s with trace := s.trace ++ t }
    | none => none

/-- How far `readpw` gets on a finite supply of events. -/
inductive Loop where
  | returned (s : PwState)
  | waiting (s : PwState)
  | fault
deriving DecidableEq, Repr

/-- Line 189: the loop, run on the answers of the successive `XNextEvent`
calls.  It is `waiting` when the supply ends while `running` still holds. -/
def readpwLoop (crypt : List Nat → List Nat → List Nat) (locks : List (Option Lock))
    (nscreens : Nat) (pws : List Nat) : List NextEvent → PwState → Loop
  | [], s => if s.running then Loop.waiting s else Loop.returned s
  | NextEvent.failed :: _, s =>
    if s.running then Loop.returned { s with trace := s.trace ++ [Call.XNextEvent] }
    else Loop.returned s
  | NextEvent.delivered ev :: rest, s =>
    if s.running then
      match step crypt locks nscreens pws { s with trace := s.trace ++ [Call.XNextEvent] } ev with
      | some s1 => readpwLoop crypt locks nscreens pws rest s1
      | none => Loop.fault
    else Loop.returned s

/-- Lines 178-183: the locals on entry; `pass0` is whatever the 256 bytes of
`pass` hold before the first write. -/
def readpwInit (pass0 : List Nat) : PwState :=
  { pass := pass0, len := 0, running := true, trace := [] }

/-- The function `readpw`. -/
def readpw (crypt : List Nat → List Nat → List Nat) (locks : List (Option Lock))
    (nscreens : Nat) (pws : List Nat) (pass0 : List Nat) (events : List NextEvent) : Loop :=
  readpwLoop crypt locks nscreens pws events (readpwInit pass0)

/-! ## `unlockscreen` and `lockscreen` -/

/-- What the X server answers on one display connection: the number of
screens, the root window of a screen, the identifier it gives to the window
created on a screen, and whether attempt number `count` (from 0) to grab the
pointer or the keyboard on a screen is answered `GrabSuccess`. -/
structure Display where
  ScreenCount : Nat
  RootWindow : Int → Nat
  XCreateWindow : Int → Nat
  XGrabPointer : Int → Nat → Bool
  XGrabKeyboard : Int → Nat → Bool

/-- The function `unlockscreen`; a null pointer is `none`. -/
def unlockscreen (dpy : Option Display) (lock : Option Lock) : List Call :=
  match dpy, lock with
  | some _, some l => [Call.XUngrabPointer, Call.XDestroyWindow l.win, Call.freeLock l]
  | _, _ => []

/-- The bound of the two retry loops of `lockscreen`. -/
def grabLimit : Nat := 10000

/-- Lines 147-152 and 156-161: `for (count = ...; count < 10000; ++count) if (grab == GrabSuccess) break;`
entered with the given `count`.  The result is the final `count` and the
requests issued.  The first argument bounds the number of iterations; the loop
is entered with `count = 0` and bound 10000, which it cannot use up before
`count` reaches 10000. -/
def grabLoop (grab : Nat → Bool) (call : Bool → Call) : Nat → Nat → Nat × List Call
  | 0, count => (count, [])
  | fuel + 1, count =>
    if count < grabLimit then
      if grab count then (count, [call true])
      else
        let r := grabLoop grab call fuel (count + 1)
        (r.1, call false :: r.2)
    else (count, [])

/-- The function `lockscreen`: the pointer it returns and the calls it makes.
`malloc` tells whether `malloc(sizeof(Lock))` succeeds. -/
def lockscreen (dpy : Option Display) (malloc : Bool) (screen : Int) : Option Lock × List Call :=
  match dpy with
  | none => (none, [])
  | some d =>
    if screen < 0 then (none, [])
    else if malloc = false then (none, [])
    else
      let lock : Lock := { screen := screen, root := d.RootWindow screen, win := d.XCreateWindow screen }
      let t0 := [Call.XCreateWindow lock.root lock.win, Call.XMapRaised lock.win]
      let p := grabLoop (d.XGrabPointer screen) (Call.XGrabPointer lock.root) grabLimit 0
      let k := if p.1 < grabLimit then
          grabLoop (d.XGrabKeyboard screen) (Call.XGrabKeyboard lock.root) grabLimit 0
        else (p.1, [])
      if k.1 ≥ grabLimit then (none, t0 ++ p.2 ++ k.2 ++ unlockscreen dpy (some lock))
      else (some lock, t0 ++ p.2 ++ k.2 ++ [Call.XSelectInput lock.root])

/-! ## `getpw`, `die` and `main` -/

/-- The fields of `struct passwd` that `getpw` reads. -/
structure Passwd where
  pw_name : List Nat
  pw_passwd : List Nat

/-- The function `getpw`: the hash, or the message it dies with.  `getpwuid`
is the entry of the calling user, `getspnam` the `sp_pwdp` field of the shadow
entry of a name. -/
def getpw (getpwuid : Option Passwd) (getspnam : List Nat → Option (List Nat)) :
    Except String (List Nat) :=
  match getpwuid with
  | none =>
    Except.error "slock: cannot retrieve password entry\n(make sure to setcap CAP_DAC_READ_SEARCH+ep)\n"
  | some pw =>
    if pw.pw_passwd ≠ [] then
      match getspnam pw.pw_name with
      | none =>
        Except.error "slock: cannot retrieve shadow entry\n(make sure to setcap CAP_DAC_READ_SEARCH+ep)\n"
      | some sp_pwdp => Except.ok sp_pwdp
    else Except.ok pw.pw_passwd

/-- Everything the outside world decides in one run of the program. -/
structure World where
  argv : List String
  getpwuid : Option Passwd
  getspnam : List Nat → Option (List Nat)
  XOpenDisplay : Option Display
  mallocLocks : Bool
  mallocLock : Nat → Bool
  crypt : List Nat → List Nat → List Nat
  pass0 : List Nat
  events : List NextEvent

/-- How a run ends: the process exits with a status, or it is blocked in
`XNextEvent` because the supply of events is used up, or it has no defined
behaviour.  Each carries the calls made. -/
inductive Outcome where
  | exit (status : Nat) (trace : List Call)
  | blocked (trace : List Call)
  | fault (trace : List Call)
deriving DecidableEq, Repr

def EXIT_FAILURE : Nat := 1

/-- The function `die`, after the calls `trace`. -/
def die (trace : List Call) (errstr : String) : Outcome :=
  Outcome.exit EXIT_FAILURE (trace ++ [Call.fputs errstr])

/-- Lines 56-62: the array `locks`, the counter `nlocks` and the calls made
after the first `i` iterations of the loop that locks the screens. -/
def lockScreens (dpy : Display) (mallocLock : Nat → Bool) : Nat → List (Option Lock) × Nat × List Call
  | 0 => ([], 0, [])
  | i + 1 =>
    let st := lockScreens dpy mallocLock i
    let r := lockscreen (some dpy) (mallocLock i) (i : Int)
    (st.1 ++ [r.1], if r.1 ≠ none then st.2.1 + 1 else st.2.1, st.2.2 ++ r.2)

/-- Lines 76-77: the calls of the first `i` iterations of the loop that unlocks
the screens. -/
def unlockScreens (dpy : Display) (locks : List (Option Lock)) : Nat → List Call
  | 0 => []
  | i + 1 => unlockScreens dpy locks i ++ unlockscreen (some dpy) (locks.getD i none)

/-- The function `main`. -/
def main (w : World) : Outcome :=
  if w.argv.length = 2 ∧ w.argv.get? 1 = some "-v" then
    die [] "slock-mod, © 2006-2012 Anselm R Garbe, 2012 philomath\n"
  else if w.argv.length ≠ 1 then die [] "usage: slock [-v]\n"
  else
    match getpw w.getpwuid w.getspnam with
    | Except.error errstr => die [] errstr
    | Except.ok pws =>
      match w.XOpenDisplay with
      | none => die [] "slock: cannot open display\n"
      | some dpy =>
        let nscreens := dpy.ScreenCount
        if w.mallocLocks = false then die [] "slock: malloc failed\n"
        else
          let st := lockScreens dpy w.mallocLock nscreens
          let locks := st.1
          let nlocks := st.2.1
          if nlocks = 0 then
            die (st.2.2 ++ [Call.freeLocks, Call.XCloseDisplay]) "cannot lock anything\n"
          else
            match readpw w.crypt locks nscreens pws w.pass0 w.events with
            | Loop.fault => Outcome.fault st.2.2
            | Loop.waiting s => Outcome.blocked (st.2.2 ++ s.trace)
            | Loop.returned s =>
              Outcome.exit 0 (st.2.2 ++ s.trace ++ unlockScreens dpy locks nscreens
                ++ [Call.freeLocks, Call.XCloseDisplay])

/-! ## Notions used in the statements -/

/-- The key symbols that reach the `default` label of the `switch`: after
normalisation they pass the `continue` and are none of Enter, Escape and
Backspace. -/
def reachesDefault (ksym : Nat) : Prop :=
  ignored (normalise ksym) = false ∧ normalise ksym ≠ XK_Return ∧
    normalise ksym ≠ XK_Escape ∧ normalise ksym ≠ XK_BackSpace

instance : DecidablePred reachesDefault :=
  fun _ => inferInstanceAs (Decidable (_ ∧ _ ∧ _ ∧ _))

/-- The events of typing keys that deliver one byte each; a key is its symbol
and its byte. -/
def typeKeys (keys : List (Nat × Nat)) : List NextEvent :=
  keys.map (fun k => NextEvent.delivered (XEvent.KeyPress k.1 [k.2]))

/-- The events of pressing Backspace once for each of the given typed texts. -/
def pressBackSpace (texts : List (List Nat)) : List NextEvent :=
  texts.map (fun text => NextEvent.delivered (XEvent.KeyPress XK_BackSpace text))

/-! ## Example inputs -/

/-- A stand-in for `crypt` that returns the key itself: the hash of a password
is then the password. -/
def cryptId (key _salt : List Nat) : List Nat := key

/-- The array `pass` with the given bytes in front and zeros behind. -/
def passOf (front : List Nat) : List Nat :=
  front ++ List.replicate (sizeof_pass - front.length) 0

/-- The state of the loop after "abc" was typed. -/
def typedAbc : PwState :=
  { pass := passOf [97, 98, 99], len := 3, running := true, trace := [] }

/-- A display with two screens on which no grab ever succeeds. -/
def contendedDisplay : Display :=
  { ScreenCount := 2, RootWindow := fun screen => screen.toNat,
    XCreateWindow := fun screen => 100 + screen.toNat,
    XGrabPointer := fun _ _ => false, XGrabKeyboard := fun _ _ => false }

/-- A run of `slock` without arguments on `contendedDisplay`, by a user whose
hash, the string "abc", is in the shadow database; the user types "abc" and
Enter. -/
def contendedWorld : World :=
  { argv := ["slock"],
    getpwuid := some { pw_name := [117], pw_passwd := [120] },
    getspnam := fun _ => some [97, 98, 99],
    XOpenDisplay := some contendedDisplay,
    mallocLocks := true,
    mallocLock := fun _ => true,
    crypt := cryptId,
    pass0 := passOf [],
    events := [NextEvent.delivered (XEvent.KeyPress 0x61 [97]),
               NextEvent.delivered (XEvent.KeyPress 0x62 [98]),
               NextEvent.delivered (XEvent.KeyPress 0x63 [99]),
               NextEvent.delivered (XEvent.KeyPress XK_Return [13])] }

/-- The loop with 250 bytes "a" in the entry buffer. -/
def nearlyFull : PwState :=
  { pass := passOf (List.replicate 250 97), len := 250, running := true, trace := [] }

/-- The loop with 255 bytes "a" in the entry buffer. -/
def full255 : PwState :=
  { pass := passOf (List.replicate 255 97), len := 255, running := true, trace := [] }

/-- The key "a", pressed `capacity + 10` times. -/
def manyKeys : List (Nat × Nat) :=
  List.replicate (sizeof_pass + 10) (0x61, 97)

/-- The keys "a", "b", "c". -/
def abcKeys : List (Nat × Nat) :=
  [(0x61, 97), (0x62, 98), (0x63, 99)]

/-! ## Notions used in the statements about acquisition and release -/

/-- The retry policy in the words of the specification: the first of the first
10000 attempts that is answered `GrabSuccess`, if there is one. -/
def firstSuccess (grab : Nat → Bool) : Option Nat :=
  (List.range grabLimit).find? grab

/-- The requests to grab the pointer. -/
def Call.isGrabPointer : Call → Bool
  | Call.XGrabPointer _ _ => true
  | _ => false

/-- The requests to grab the keyboard. -/
def Call.isGrabKeyboard : Call → Bool
  | Call.XGrabKeyboard _ _ => true
  | _ => false

/-- The lock that `lockscreen` builds for a screen. -/
def lockOf (d : Display) (screen : Int) : Lock :=
  { root := d.RootWindow screen, win := d.XCreateWindow screen, screen := screen }

/-- A display with three screens: on screen 1 no pointer grab ever succeeds, on
the others the third pointer attempt and the first keyboard attempt succeed. -/
def partlyDisplay : Display :=
  { ScreenCount := 3, RootWindow := fun screen => screen.toNat,
    XCreateWindow := fun screen => 100 + screen.toNat,
    XGrabPointer := fun screen count => decide (screen ≠ 1) && decide (2 ≤ count),
    XGrabKeyboard := fun _ _ => true }

/-- The releases that the specification asks for at the end: one for each armed
lock, in the order of the screens, none for an absent one. -/
def releases : List (Option Lock) → List Call
  | [] => []
  | none :: rest => releases rest
  | some lock :: rest =>
    [Call.XUngrabPointer, Call.XDestroyWindow lock.win, Call.freeLock lock] ++ releases rest

/-- The number of armed locks in `locks`. -/
def armedCount : List (Option Lock) → Nat
  | [] => 0
  | none :: rest => armedCount rest
  | some _ :: rest => armedCount rest + 1

/-- The requests to destroy a window. -/
def Call.isDestroyWindow : Call → Bool
  | Call.XDestroyWindow _ => true
  | _ => false

/-- The run of `contendedWorld` on `partlyDisplay`: two of three screens get
locked, then "abc" and Enter are typed. -/
def partlyWorld : World :=
  { contendedWorld with XOpenDisplay := some partlyDisplay }

/-- The same run, with a non-key event instead of the typing. -/
def partlyWorldOther : World :=
  { partlyWorld with events := [NextEvent.delivered XEvent.Other] }

theorem strcmp_eq_zero_iff (a b : List Nat) : strcmp a b = 0 ↔ a = b := by
  induction a generalizing b with
  | nil => cases b <;> simp [strcmp]
  | cons x xs ih =>
    cases b with
    | nil => simp [strcmp]
    | cons y ys =>
      by_cases hxy : x = y
      · simp [strcmp, hxy, ih]
      · by_cases hlt : x < y <;> simp [strcmp, hxy, hlt]

theorem cstr_of_no_nul (p : List Nat) (h : ∀ b ∈ p, b ≠ 0) : cstr p = p := by
  unfold cstr
  rw [List.takeWhile_eq_self_iff]
  intro b hb
  simpa using h b hb

/-- Writing the terminator at `pass[len]` makes the string at `pass` the string
of the first `len` bytes. -/
theorem cstr_set_terminator (p : List Nat) (n : Nat) (h : n < p.length) :
    cstr (p.set n 0) = cstr (p.take n) := by
  induction p generalizing n with
  | nil => simp at h
  | cons a t ih =>
    cases n with
    | zero => simp [cstr]
    | succ m =>
      have hm : m < t.length := by simpa using h
      have hrec := ih m hm
      simp only [cstr] at hrec
      by_cases ha : a = 0
      · simp [cstr, ha]
      · simp only [cstr, List.set_cons_succ, List.take_succ_cons, List.takeWhile_cons]
        have hdec : decide (a ≠ 0) = true := by simpa using ha
        rw [hdec]
        simp only [if_true]
        rw [hrec]

theorem length_passOf (front : List Nat) (h : front.length ≤ sizeof_pass) :
    (passOf front).length = sizeof_pass := by
  simp only [passOf, List.length_append, List.length_replicate]
  omega

/-! ## Facts about the key classes -/

theorem ignored_XK_Return : ignored XK_Return = false := by decide

theorem normalise_XK_Return : normalise XK_Return = XK_Return := by decide

theorem normalise_XK_Escape : normalise XK_Escape = XK_Escape := by decide

theorem normalise_XK_BackSpace : normalise XK_BackSpace = XK_BackSpace := by decide

/-! ## The Enter key -/

/-- What Enter does in a state whose `len` is inside `pass`. -/
theorem keyPress_Return (crypt : List Nat → List Nat → List Nat) (pws : List Nat) (s : PwState)
    (ksym : Nat) (text : List Nat) (hk : normalise ksym = XK_Return) (hlen : s.len < sizeof_pass) :
    keyPress crypt pws s ksym text =
      some { pass := s.pass.set s.len 0, len := 0,
             running := decide (crypt (cstr (s.pass.set s.len 0)) pws ≠ pws),
             trace := s.trace ++ [Call.crypt (cstr (s.pass.set s.len 0))] ++
               (if crypt (cstr (s.pass.set s.len 0)) pws ≠ pws then [Call.XBell] else []) } := by
  simp [keyPress, hk, ignored_XK_Return, hlen, strcmp_eq_zero_iff]

/-- C1: when Enter is pressed, `readpw` clears `running` exactly when `crypt`
of the string held in the entry buffer, under the hash, equals the hash; the
string is the first `len` bytes of `pass` whenever none of them is NUL.  This
holds for every `crypt`, every hash and every `len` the array allows. -/
theorem enter_matches_iff_crypt_eq (crypt : List Nat → List Nat → List Nat)
    (locks : List (Option Lock)) (nscreens : Nat) (H : List Nat) (s : PwState)
    (ksym : Nat) (text : List Nat) (hk : normalise ksym = XK_Return)
    (hlen : s.len < sizeof_pass) (hpass : s.pass.length = sizeof_pass) :
    (∃ s1, step crypt locks nscreens H s (XEvent.KeyPress ksym text) = some s1 ∧
      (s1.running = false ↔ crypt (cstr s.entry) H = H)) ∧
    ((∀ b ∈ s.entry, b ≠ 0) → cstr s.entry = s.entry) := by
  refine ⟨?_, cstr_of_no_nul s.entry⟩
  have hset : cstr (s.pass.set s.len 0) = cstr s.entry :=
    cstr_set_terminator s.pass s.len (by rw [hpass]; exact hlen)
  refine ⟨_, by rw [step, keyPress_Return crypt H s ksym text hk hlen], ?_⟩
  simp [hset]

/-- The Enter theorem at the state after "abc" was typed, with "abc" as hash. -/
theorem enter_matches_iff_crypt_eq_witness :
    (∃ s1, step cryptId [] 0 [97, 98, 99] typedAbc (XEvent.KeyPress XK_Return [13]) = some s1 ∧
      (s1.running = false ↔ cryptId (cstr typedAbc.entry) [97, 98, 99] = [97, 98, 99])) ∧
    ((∀ b ∈ typedAbc.entry, b ≠ 0) → cstr typedAbc.entry = typedAbc.entry) :=
  enter_matches_iff_crypt_eq cryptId [] 0 [97, 98, 99] typedAbc XK_Return [13]
    (by decide) (by decide) (length_passOf _ (by decide))

/-! ## The loop stops only on a matching Enter -/

/-- A key press that is not Enter after normalisation never faults and keeps
`running` as it is. -/
theorem keyPress_not_Return (crypt : List Nat → List Nat → List Nat) (pws : List Nat) (s : PwState)
    (ksym : Nat) (text : List Nat) (hk : normalise ksym ≠ XK_Return) :
    ∃ s1, keyPress crypt pws s ksym text = some s1 ∧ s1.running = s.running ∧
      s1.trace = s.trace := by
  unfold keyPress
  simp only [hk, if_false]
  split
  · exact ⟨s, rfl, rfl, rfl⟩
  · split
    · exact ⟨_, rfl, rfl, rfl⟩
    · split
      · split
        · exact ⟨_, rfl, rfl, rfl⟩
        · exact ⟨s, rfl, rfl, rfl⟩
      · split
        · exact ⟨_, rfl, rfl, rfl⟩
        · exact ⟨s, rfl, rfl, rfl⟩

/-- The body of the loop, from a running state: it clears `running` exactly
when the event is a key press whose normalised symbol is Enter and `crypt` of
the string in the buffer equals the hash.  The only event without a resulting
state is a non-key event whose raising loop meets a null entry of `locks`. -/
theorem loop_stops_only_on_matching_enter (crypt : List Nat → List Nat → List Nat)
    (locks : List (Option Lock)) (nscreens : Nat) (pws : List Nat) (s : PwState) (ev : XEvent)
    (hrun : s.running = true) (hlen : s.len < sizeof_pass) (hpass : s.pass.length = sizeof_pass) :
    match step crypt locks nscreens pws s ev with
    | some s1 =>
      s1.running = false ↔
        ∃ ksym text, ev = XEvent.KeyPress ksym text ∧ normalise ksym = XK_Return ∧
          crypt (cstr s.entry) pws = pws
    | none => ev = XEvent.Other ∧ raiseWindows locks nscreens = none := by
  have hset : cstr (s.pass.set s.len 0) = cstr s.entry :=
    cstr_set_terminator s.pass s.len (by rw [hpass]; exact hlen)
  cases ev with
  | Other =>
    simp only [step]
    cases hr : raiseWindows locks nscreens with
    | none => simp
    | some t => simp [hrun]
  | KeyPress ksym text =>
    simp only [step]
    by_cases hk : normalise ksym = XK_Return
    · rw [keyPress_Return crypt pws s ksym text hk hlen]
      simp [hk, hset]
    · obtain ⟨s1, h1, h2, _⟩ := keyPress_not_Return crypt pws s ksym text hk
      rw [h1]
      simp [h2, hrun, hk]

/-- The body of the loop for Escape pressed after "abc" was typed. -/
theorem loop_stops_only_on_matching_enter_witness :
    match step cryptId [] 0 [97, 98, 99] typedAbc (XEvent.KeyPress XK_Escape [27]) with
    | some s1 =>
      s1.running = false ↔
        ∃ ksym text, XEvent.KeyPress XK_Escape [27] = XEvent.KeyPress ksym text ∧
          normalise ksym = XK_Return ∧ cryptId (cstr typedAbc.entry) [97, 98, 99] = [97, 98, 99]
    | none => XEvent.KeyPress XK_Escape [27] = XEvent.Other ∧ raiseWindows [] 0 = none :=
  loop_stops_only_on_matching_enter cryptId [] 0 [97, 98, 99] typedAbc
    (XEvent.KeyPress XK_Escape [27]) rfl (by decide) (length_passOf _ (by decide))

/-- The loop of line 189 run on one delivered event, from a running state.  It
returns, with `running` cleared, only when the event is a key press whose
normalised symbol is Enter and `crypt` of the string in the buffer equals the
hash; on every other event it goes on waiting with `running` set; and it has
no defined result exactly when the event is not a key press and the raising
loop meets a null entry of `locks`. -/
theorem readpwLoop_one_event (crypt : List Nat → List Nat → List Nat)
    (locks : List (Option Lock)) (nscreens : Nat) (pws : List Nat) (s : PwState) (ev : XEvent)
    (hrun : s.running = true) (hlen : s.len < sizeof_pass) (hpass : s.pass.length = sizeof_pass) :
    match readpwLoop crypt locks nscreens pws [NextEvent.delivered ev] s with
    | Loop.returned s1 =>
      s1.running = false ∧
        ∃ ksym text, ev = XEvent.KeyPress ksym text ∧ normalise ksym = XK_Return ∧
          crypt (cstr s.entry) pws = pws
    | Loop.waiting s1 =>
      s1.running = true ∧
        ¬ ∃ ksym text, ev = XEvent.KeyPress ksym text ∧ normalise ksym = XK_Return ∧
          crypt (cstr s.entry) pws = pws
    | Loop.fault => ev = XEvent.Other ∧ raiseWindows locks nscreens = none := by
  have hstep := loop_stops_only_on_matching_enter crypt locks nscreens pws
    { pass := s.pass, len := s.len, running := true, trace := s.trace ++ [Call.XNextEvent] }
    ev rfl hlen hpass
  simp only [readpwLoop, hrun, if_true]
  cases hs : step crypt locks nscreens pws
      { pass := s.pass, len := s.len, running := true, trace := s.trace ++ [Call.XNextEvent] }
      ev with
  | none =>
    rw [hs] at hstep
    exact hstep
  | some s1 =>
    rw [hs] at hstep
    simp only [readpwLoop]
    have hiff : s1.running = false ↔
        ∃ ksym text, ev = XEvent.KeyPress ksym text ∧ normalise ksym = XK_Return ∧
          crypt (cstr s.entry) pws = pws := hstep
    by_cases hr1 : s1.running = true
    · simp only [hr1, if_true]
      refine ⟨trivial, fun hm => ?_⟩
      have := hiff.mpr hm
      rw [hr1] at this
      cases this
    · have hf : s1.running = false := by simpa using hr1
      simp only [hf, Bool.false_eq_true, if_false]
      exact ⟨trivial, hiff.mp hf⟩

/-- The loop on a non-key event after "abc" was typed, with no screen locked
or absent. -/
theorem readpwLoop_one_event_witness :
    match readpwLoop cryptId [] 0 [97, 98, 99] [NextEvent.delivered XEvent.Other] typedAbc with
    | Loop.returned s1 =>
      s1.running = false ∧
        ∃ ksym text, XEvent.Other = XEvent.KeyPress ksym text ∧ normalise ksym = XK_Return ∧
          cryptId (cstr typedAbc.entry) [97, 98, 99] = [97, 98, 99]
    | Loop.waiting s1 =>
      s1.running = true ∧
        ¬ ∃ ksym text, XEvent.Other = XEvent.KeyPress ksym text ∧ normalise ksym = XK_Return ∧
          cryptId (cstr typedAbc.entry) [97, 98, 99] = [97, 98, 99]
    | Loop.fault => XEvent.Other = XEvent.Other ∧ raiseWindows [] 0 = none :=
  readpwLoop_one_event cryptId [] 0 [97, 98, 99] typedAbc XEvent.Other rfl (by decide)
    (length_passOf _ (by decide))

/-! ## Acquisition: the calls it makes and when it fails -/

theorem grabLoop_trace (grab : Nat → Bool) (call : Bool → Call) (fuel count : Nat) :
    ∀ c ∈ (grabLoop grab call fuel count).2, ∃ ok, c = call ok := by
  induction fuel generalizing count with
  | zero => simp [grabLoop]
  | succ k ih =>
    unfold grabLoop
    split
    · split
      · simp
      · intro c hc
        simp only [List.mem_cons] at hc
        rcases hc with hc | hc
        · exact ⟨false, hc⟩
        · exact ih (count + 1) c hc
    · simp

/-- When every attempt fails, the retry loop ends with `count` at the bound. -/
theorem grabLoop_all_fail (grab : Nat → Bool) (call : Bool → Call) (fuel count : Nat)
    (hfuel : grabLimit ≤ fuel + count)
    (hfail : ∀ c, count ≤ c → c < grabLimit → grab c = false) :
    grabLimit ≤ (grabLoop grab call fuel count).1 := by
  induction fuel generalizing count with
  | zero => simpa [grabLoop] using hfuel
  | succ k ih =>
    unfold grabLoop
    split
    · rename_i hlt
      rw [hfail count (le_refl _) hlt]
      simp only [Bool.false_eq_true, if_false]
      exact ih (count + 1) (by omega) (fun c hc hc2 => hfail c (by omega) hc2)
    · rename_i hge
      simpa using hge

/-- When no pointer grab succeeds, `lockscreen` returns the null pointer. -/
theorem lockscreen_none_of_pointer_fails (d : Display) (malloc : Bool) (screen : Int)
    (hfail : ∀ c, c < grabLimit → d.XGrabPointer screen c = false) :
    (lockscreen (some d) malloc screen).1 = none := by
  unfold lockscreen
  simp only
  split
  · rfl
  · split
    · rfl
    · have hp := grabLoop_all_fail (d.XGrabPointer screen) (Call.XGrabPointer (d.RootWindow screen))
        grabLimit 0 (by omega) (fun c _ hc => hfail c hc)
      have hnot : ¬ (grabLoop (d.XGrabPointer screen) (Call.XGrabPointer (d.RootWindow screen))
          grabLimit 0).1 < grabLimit := by omega
      simp only [hnot, if_false]
      rw [if_pos (by simpa using hp)]

/-- None of the calls of `lockscreen` is one of those that `readpw` makes. -/
theorem lockscreen_trace (dpy : Option Display) (malloc : Bool) (screen : Int) :
    ∀ c ∈ (lockscreen dpy malloc screen).2, c.fromReadpw = false := by
  unfold lockscreen
  cases dpy with
  | none => simp
  | some d =>
    simp only
    have hgrab : ∀ (grab : Nat → Bool) (call : Bool → Call),
        (∀ ok, (call ok).fromReadpw = false) →
        ∀ c ∈ (grabLoop grab call grabLimit 0).2, c.fromReadpw = false := by
      intro grab call hcall c hc
      obtain ⟨ok, rfl⟩ := grabLoop_trace grab call grabLimit 0 c hc
      exact hcall ok
    have hp := hgrab (d.XGrabPointer screen) (Call.XGrabPointer (d.RootWindow screen))
      (fun _ => rfl)
    have hk := hgrab (d.XGrabKeyboard screen) (Call.XGrabKeyboard (d.RootWindow screen))
      (fun _ => rfl)
    by_cases hs : screen < 0
    · simp [hs]
    by_cases hm : malloc = false
    · simp [hs, hm]
    rw [if_neg hs, if_neg hm]
    have h0 : ∀ c ∈ [Call.XCreateWindow (d.RootWindow screen) (d.XCreateWindow screen),
        Call.XMapRaised (d.XCreateWindow screen)], c.fromReadpw = false := by
      simp [Call.fromReadpw]
    have hu : ∀ (l : Lock), ∀ c ∈ unlockscreen (some d) (some l), c.fromReadpw = false := by
      simp [unlockscreen, Call.fromReadpw]
    have hsel : ∀ c ∈ [Call.XSelectInput (d.RootWindow screen)], c.fromReadpw = false := by
      simp [Call.fromReadpw]
    by_cases hpc : (grabLoop (d.XGrabPointer screen)
        (Call.XGrabPointer (d.RootWindow screen)) grabLimit 0).1 < grabLimit
    · simp only [hpc, if_true]
      by_cases hkc : (grabLoop (d.XGrabKeyboard screen)
          (Call.XGrabKeyboard (d.RootWindow screen)) grabLimit 0).1 ≥ grabLimit
      · simp only [hkc, if_true, List.forall_mem_append]
        exact ⟨⟨⟨h0, hp⟩, hk⟩, hu _⟩
      · simp only [hkc, if_false, List.forall_mem_append]
        exact ⟨⟨⟨h0, hp⟩, hk⟩, hsel⟩
    · have hge : (grabLoop (d.XGrabPointer screen)
          (Call.XGrabPointer (d.RootWindow screen)) grabLimit 0).1 ≥ grabLimit := by omega
      simp only [hpc, hge, if_false, if_true, List.forall_mem_append]
      exact ⟨⟨⟨h0, hp⟩, by simp⟩, hu _⟩

theorem lockScreens_trace (dpy : Display) (mallocLock : Nat → Bool) (n : Nat) :
    ∀ c ∈ (lockScreens dpy mallocLock n).2.2, c.fromReadpw = false := by
  induction n with
  | zero => simp [lockScreens]
  | succ i ih =>
    simp only [lockScreens, List.forall_mem_append]
    exact ⟨ih, lockscreen_trace (some dpy) (mallocLock i) (i : Int)⟩

/-- When every `lockscreen` call of the loop returns the null pointer, `nlocks`
is still 0 after it. -/
theorem lockScreens_nlocks_zero (dpy : Display) (mallocLock : Nat → Bool) (n : Nat)
    (hnone : ∀ i, i < n → (lockscreen (some dpy) (mallocLock i) (i : Int)).1 = none) :
    (lockScreens dpy mallocLock n).2.1 = 0 := by
  induction n with
  | zero => rfl
  | succ i ih =>
    simp only [lockScreens]
    rw [hnone i (Nat.lt_succ_self i)]
    simpa using ih (fun j hj => hnone j (Nat.lt_succ_of_lt hj))

/-! ## Nothing locked, nothing protected -/

/-- C3: whatever the number of screens, when `lockscreen` returns the null
pointer for every screen, `main` ends through `die`, with the failure status,
and has made none of the calls of `readpw` (it never waits for an event, never
calls `crypt`): it neither enters the password loop nor returns 0. -/
theorem main_dies_when_nothing_locked (w : World)
    (hnone : ∀ dpy, w.XOpenDisplay = some dpy → ∀ i, i < dpy.ScreenCount →
      (lockscreen (some dpy) (w.mallocLock i) (i : Int)).1 = none) :
    ∃ trace errstr, main w = die trace errstr ∧
      die trace errstr = Outcome.exit EXIT_FAILURE (trace ++ [Call.fputs errstr]) ∧
      ∀ c ∈ trace, c.fromReadpw = false := by
  unfold main
  split
  · exact ⟨[], _, rfl, rfl, by simp⟩
  · split
    · exact ⟨[], _, rfl, rfl, by simp⟩
    · split
      · exact ⟨[], _, rfl, rfl, by simp⟩
      · split
        · exact ⟨[], _, rfl, rfl, by simp⟩
        · rename_i dpy hdpy
          simp only
          split
          · exact ⟨[], _, rfl, rfl, by simp⟩
          · rw [if_pos (lockScreens_nlocks_zero dpy w.mallocLock dpy.ScreenCount (hnone dpy hdpy))]
            refine ⟨_, _, rfl, rfl, ?_⟩
            simp only [List.forall_mem_append]
            exact ⟨lockScreens_trace dpy w.mallocLock dpy.ScreenCount, by simp [Call.fromReadpw]⟩

/-- The theorem above for two screens on which every grab fails. -/
theorem main_dies_when_nothing_locked_witness :
    ∃ trace errstr, main contendedWorld = die trace errstr ∧
      die trace errstr = Outcome.exit EXIT_FAILURE (trace ++ [Call.fputs errstr]) ∧
      ∀ c ∈ trace, c.fromReadpw = false :=
  main_dies_when_nothing_locked contendedWorld (fun dpy hdpy i _ => by
    have hd : contendedDisplay = dpy := Option.some.inj hdpy
    subst hd
    exact lockscreen_none_of_pointer_fails contendedDisplay _ _ (fun _ _ => rfl))

/-! ## The entry buffer stays inside `pass` -/

theorem length_memcpy (dest : List Nat) (off : Nat) (src : List Nat) (n : Nat)
    (hsrc : n ≤ src.length) (hdest : off + n ≤ dest.length) :
    (memcpy dest off src n).length = dest.length := by
  simp only [memcpy, List.length_append, List.length_take, List.length_drop]
  omega

/-- One key press keeps `len` a valid index of `pass` and the array at its size,
and it has a resulting state. -/
theorem keyPress_inBounds (crypt : List Nat → List Nat → List Nat) (pws : List Nat) (s : PwState)
    (ksym : Nat) (text : List Nat) (hlen : s.len < sizeof_pass)
    (hpass : s.pass.length = sizeof_pass) :
    ∃ s1, keyPress crypt pws s ksym text = some s1 ∧ s1.len < sizeof_pass ∧
      s1.pass.length = sizeof_pass := by
  by_cases hk : normalise ksym = XK_Return
  · rw [keyPress_Return crypt pws s ksym text hk hlen]
    exact ⟨_, rfl, by simp [sizeof_pass], by simp [hpass]⟩
  · unfold keyPress
    simp only [hk, if_false]
    split
    · exact ⟨s, rfl, hlen, hpass⟩
    · split
      · exact ⟨_, rfl, by simp [sizeof_pass], hpass⟩
      · split
        · split
          · exact ⟨_, rfl, by simp only; omega, hpass⟩
          · exact ⟨s, rfl, hlen, hpass⟩
        · split
          · rename_i h
            refine ⟨_, rfl, h.2.2, ?_⟩
            simp only
            rw [length_memcpy _ _ _ _ (le_refl _) (by rw [hpass]; exact Nat.le_of_lt h.2.2)]
            exact hpass
          · exact ⟨s, rfl, hlen, hpass⟩

theorem step_inBounds (crypt : List Nat → List Nat → List Nat) (locks : List (Option Lock))
    (nscreens : Nat) (pws : List Nat) (s : PwState) (ev : XEvent) (hlen : s.len < sizeof_pass)
    (hpass : s.pass.length = sizeof_pass) :
    match step crypt locks nscreens pws s ev with
    | some s1 => s1.len < sizeof_pass ∧ s1.pass.length = sizeof_pass
    | none => raiseWindows locks nscreens = none := by
  cases ev with
  | Other =>
    simp only [step]
    cases hr : raiseWindows locks nscreens with
    | none => simp
    | some t => exact ⟨hlen, hpass⟩
  | KeyPress ksym text =>
    obtain ⟨s1, h1, h2, h3⟩ := keyPress_inBounds crypt pws s ksym text hlen hpass
    simp only [step, h1]
    exact ⟨h2, h3⟩

theorem readpwLoop_inBounds (crypt : List Nat → List Nat → List Nat)
    (locks : List (Option Lock)) (nscreens : Nat) (pws : List Nat) (events : List NextEvent)
    (s : PwState) (hlen : s.len < sizeof_pass) (hpass : s.pass.length = sizeof_pass) :
    match readpwLoop crypt locks nscreens pws events s with
    | Loop.returned s1 => s1.len ≤ 255 ∧ s1.pass.length = sizeof_pass
    | Loop.waiting s1 => s1.len ≤ 255 ∧ s1.pass.length = sizeof_pass
    | Loop.fault => raiseWindows locks nscreens = none := by
  have hle : s.len ≤ 255 := by simp only [sizeof_pass] at hlen; omega
  induction events generalizing s with
  | nil =>
    by_cases hr : s.running = true <;> simp only [readpwLoop, hr] <;> exact ⟨hle, hpass⟩
  | cons e rest ih =>
    cases e with
    | failed =>
      by_cases hr : s.running = true <;> simp only [readpwLoop, hr] <;> exact ⟨hle, hpass⟩
    | delivered ev =>
      by_cases hr : s.running = true
      · simp only [readpwLoop, hr, if_true]
        have hstep := step_inBounds crypt locks nscreens pws
          { s with trace := s.trace ++ [Call.XNextEvent] } ev hlen hpass
        simp only [hr] at hstep
        cases hs : step crypt locks nscreens pws
            { pass := s.pass, len := s.len, running := true,
              trace := s.trace ++ [Call.XNextEvent] } ev with
        | none =>
          rw [hs] at hstep
          exact hstep
        | some s1 =>
          rw [hs] at hstep
          exact ih s1 hstep.1 hstep.2 (by have := hstep.1; simp only [sizeof_pass] at this; omega)
      · simp only [readpwLoop, hr]
        exact ⟨hle, hpass⟩

/-- C4: from the empty buffer, after any finite sequence of events, whatever
the number of bytes each key press delivers (so also when it is between 0 and
32, the size of `buf`), `len` is at most 255, below the 256 bytes of `pass`,
and `pass` still has its 256 bytes; so index `len`, where Enter writes the
terminator, is inside the array.  The run has no defined result only when the
raising loop meets a null entry of `locks`. -/
theorem entry_length_below_capacity (crypt : List Nat → List Nat → List Nat)
    (locks : List (Option Lock)) (nscreens : Nat) (pws pass0 : List Nat)
    (events : List NextEvent) (hpass0 : pass0.length = sizeof_pass) :
    match readpw crypt locks nscreens pws pass0 events with
    | Loop.returned s => s.len ≤ 255 ∧ s.pass.length = sizeof_pass
    | Loop.waiting s => s.len ≤ 255 ∧ s.pass.length = sizeof_pass
    | Loop.fault => raiseWindows locks nscreens = none :=
  readpwLoop_inBounds crypt locks nscreens pws events (readpwInit pass0)
    (by simp [readpwInit, sizeof_pass]) hpass0

/-- The theorem above for "abc" and Enter typed on the empty buffer. -/
theorem entry_length_below_capacity_witness :
    match readpw cryptId [] 0 [97, 98, 99] (passOf []) contendedWorld.events with
    | Loop.returned s => s.len ≤ 255 ∧ s.pass.length = sizeof_pass
    | Loop.waiting s => s.len ≤ 255 ∧ s.pass.length = sizeof_pass
    | Loop.fault => raiseWindows [] 0 = none :=
  entry_length_below_capacity cryptId [] 0 [97, 98, 99] (passOf []) contendedWorld.events
    (length_passOf _ (by decide))

/-! ## Printable input -/

/-- What the `default` label does. -/
theorem keyPress_default (crypt : List Nat → List Nat → List Nat) (pws : List Nat) (s : PwState)
    (ksym : Nat) (text : List Nat) (hd : reachesDefault ksym) :
    keyPress crypt pws s ksym text =
      if text.length ≠ 0 ∧ iscntrl (text.headD 0) = false ∧ s.len + text.length < sizeof_pass then
        some { s with pass := memcpy s.pass s.len text text.length, len := s.len + text.length }
      else some s := by
  obtain ⟨h1, h2, h3, h4⟩ := hd
  simp only [keyPress, h1, h2, h3, h4, if_false, Bool.false_eq_true]

/-- Input that does not leave room for the terminator is dropped. -/
theorem keyPress_default_no_room (crypt : List Nat → List Nat → List Nat) (pws : List Nat)
    (s : PwState) (ksym : Nat) (text : List Nat) (hd : reachesDefault ksym)
    (hroom : sizeof_pass ≤ s.len + text.length) :
    keyPress crypt pws s ksym text = some s := by
  rw [keyPress_default crypt pws s ksym text hd, if_neg]
  intro h
  exact absurd h.2.2 (Nat.not_lt_of_le hroom)

/-- Input whose first byte is a control character is dropped. -/
theorem keyPress_default_cntrl (crypt : List Nat → List Nat → List Nat) (pws : List Nat)
    (s : PwState) (ksym : Nat) (text : List Nat) (hd : reachesDefault ksym)
    (hc : iscntrl (text.headD 0) = true) :
    keyPress crypt pws s ksym text = some s := by
  rw [keyPress_default crypt pws s ksym text hd, if_neg]
  intro h
  rw [hc] at h
  exact absurd h.2.1 (by decide)

/-- Input that starts with a byte that is no control character and leaves room
for the terminator is copied behind the entry. -/
theorem keyPress_default_append (crypt : List Nat → List Nat → List Nat) (pws : List Nat)
    (s : PwState) (ksym : Nat) (text : List Nat) (hd : reachesDefault ksym)
    (hnum : 1 ≤ text.length) (hc : iscntrl (text.headD 0) = false)
    (hroom : s.len + text.length < sizeof_pass) :
    keyPress crypt pws s ksym text =
      some { s with pass := memcpy s.pass s.len text text.length, len := s.len + text.length } := by
  rw [keyPress_default crypt pws s ksym text hd, if_pos]
  exact ⟨by omega, hc, hroom⟩

/-- After `memcpy(pass + len, buf, num)` the first `len + num` bytes of `pass`
are the old entry followed by the copied bytes. -/
theorem take_memcpy (dest : List Nat) (off : Nat) (src : List Nat) (hoff : off ≤ dest.length) :
    (memcpy dest off src src.length).take (off + src.length) = dest.take off ++ src := by
  simp only [memcpy, List.take_length]
  apply List.take_left'
  simp only [List.length_append, List.length_take]
  omega

/-- C5: a key press that reaches the `default` label with `len + num` above
256 leaves the state of the loop exactly as it was: `pass` and `len` are the
same (nothing is written), no call is made (no bell) and `running` is
unchanged. -/
theorem oversized_input_dropped (crypt : List Nat → List Nat → List Nat)
    (locks : List (Option Lock)) (nscreens : Nat) (pws : List Nat) (s : PwState)
    (ksym : Nat) (text : List Nat) (hd : reachesDefault ksym)
    (hover : s.len + text.length > sizeof_pass) :
    step crypt locks nscreens pws s (XEvent.KeyPress ksym text) = some s :=
  keyPress_default_no_room crypt pws s ksym text hd (Nat.le_of_lt hover)

/-- The theorem above for ten bytes arriving on a buffer of 250. -/
theorem oversized_input_dropped_witness :
    step cryptId [] 0 [97, 98, 99] nearlyFull (XEvent.KeyPress 0x61 (List.replicate 10 97))
      = some nearlyFull :=
  oversized_input_dropped cryptId [] 0 [97, 98, 99] nearlyFull 0x61 (List.replicate 10 97)
    (by decide) (by decide)

theorem length_entry (s : PwState) (h : s.len ≤ s.pass.length) : s.entry.length = s.len := by
  simp only [PwState.entry, List.length_take]
  omega

/-- Typing keys of one byte each, none a control character: the buffer takes
them until it holds 255 bytes and drops the rest, and the loop goes on with
the events that follow. -/
theorem readpwLoop_typeKeys_append (crypt : List Nat → List Nat → List Nat)
    (locks : List (Option Lock)) (nscreens : Nat) (pws : List Nat) (keys : List (Nat × Nat))
    (s : PwState) (hrun : s.running = true) (hlen : s.len < sizeof_pass)
    (hpass : s.pass.length = sizeof_pass)
    (hkeys : ∀ k ∈ keys, reachesDefault k.1 ∧ iscntrl k.2 = false) :
    ∃ s1, (∀ rest, readpwLoop crypt locks nscreens pws (typeKeys keys ++ rest) s
        = readpwLoop crypt locks nscreens pws rest s1) ∧
      s1.len = min (s.len + keys.length) 255 ∧
      s1.entry = (s.entry ++ keys.map Prod.snd).take 255 ∧
      s1.running = true ∧ s1.pass.length = sizeof_pass ∧
      s1.trace = s.trace ++ List.replicate keys.length Call.XNextEvent := by
  induction keys generalizing s with
  | nil =>
    have hl := length_entry s (by rw [hpass]; exact Nat.le_of_lt hlen)
    simp only [sizeof_pass] at hlen
    refine ⟨s, fun rest => rfl, by simp; omega, ?_, hrun, hpass, by simp⟩
    rw [List.map_nil, List.append_nil, List.take_of_length_le (by omega)]
  | cons k ks ih =>
    obtain ⟨hd, hc⟩ := hkeys k (List.mem_cons_self k ks)
    have hks : ∀ k ∈ ks, reachesDefault k.1 ∧ iscntrl k.2 = false :=
      fun j hj => hkeys j (List.mem_cons_of_mem k hj)
    have hl := length_entry s (by rw [hpass]; exact Nat.le_of_lt hlen)
    simp only [typeKeys, List.map_cons, List.cons_append, readpwLoop, hrun, if_true, step]
    by_cases hroom : s.len + 1 < sizeof_pass
    · rw [keyPress_default_append crypt pws _ k.1 [k.2] hd (by simp) (by simpa using hc)
        (by simpa using hroom)]
      simp only
      obtain ⟨s1, h1, h2, h3, h4, h5, h6⟩ := ih
        { pass := memcpy s.pass s.len [k.2] [k.2].length, len := s.len + [k.2].length,
          running := true, trace := s.trace ++ [Call.XNextEvent] } rfl (by simpa using hroom)
        (by
          simp only
          rw [length_memcpy _ _ _ _ (le_refl _) (by rw [hpass]; exact Nat.le_of_lt hroom)]
          exact hpass) hks
      refine ⟨s1, h1, ?_, ?_, h4, h5, ?_⟩
      · rw [h2]
        simp only [List.length_cons, List.length_nil]
        omega
      · rw [h3]
        simp only [PwState.entry]
        rw [take_memcpy s.pass s.len [k.2] (by rw [hpass]; exact Nat.le_of_lt hlen)]
        simp
      · rw [h6]
        simp [List.replicate_succ]
    · have hfull : sizeof_pass ≤ s.len + [k.2].length := by
        simp only [List.length_cons, List.length_nil]
        omega
      rw [keyPress_default_no_room crypt pws
        { pass := s.pass, len := s.len, running := true, trace := s.trace ++ [Call.XNextEvent] }
        k.1 [k.2] hd hfull]
      simp only
      obtain ⟨s1, h1, h2, h3, h4, h5, h6⟩ := ih
        { pass := s.pass, len := s.len, running := true, trace := s.trace ++ [Call.XNextEvent] }
        rfl hlen hpass hks
      simp only [sizeof_pass] at hlen hroom
      refine ⟨s1, h1, ?_, ?_, h4, h5, ?_⟩
      · rw [h2]
        simp only [List.length_cons]
        omega
      · rw [h3]
        simp only [PwState.entry] at hl ⊢
        rw [List.take_append_of_le_length (by omega), List.take_append_of_le_length (by omega)]
      · rw [h6]
        simp [List.replicate_succ]

/-- With no event after them, the typed keys leave the loop waiting. -/
theorem readpwLoop_typeKeys (crypt : List Nat → List Nat → List Nat)
    (locks : List (Option Lock)) (nscreens : Nat) (pws : List Nat) (keys : List (Nat × Nat))
    (s : PwState) (hrun : s.running = true) (hlen : s.len < sizeof_pass)
    (hpass : s.pass.length = sizeof_pass)
    (hkeys : ∀ k ∈ keys, reachesDefault k.1 ∧ iscntrl k.2 = false) :
    ∃ s1, readpwLoop crypt locks nscreens pws (typeKeys keys) s = Loop.waiting s1 ∧
      s1.len = min (s.len + keys.length) 255 ∧
      s1.entry = (s.entry ++ keys.map Prod.snd).take 255 := by
  obtain ⟨s1, h1, h2, h3, h4, _, _⟩ :=
    readpwLoop_typeKeys_append crypt locks nscreens pws keys s hrun hlen hpass hkeys
  refine ⟨s1, ?_, h2, h3⟩
  have h := h1 []
  rw [List.append_nil] at h
  rw [h]
  simp [readpwLoop, h4]

theorem manyKeys_printable : ∀ k ∈ manyKeys, reachesDefault k.1 ∧ iscntrl k.2 = false := by
  intro k hk
  rw [List.eq_of_mem_replicate hk]
  decide

theorem length_manyKeys : manyKeys.length = sizeof_pass + 10 :=
  List.length_replicate _ _

/-- C6, as stated, fails.  With 255 bytes in the buffer, a printable key press
that delivers the one byte "b" has `len + num = 256`, not above the capacity,
and yet the byte is not appended: the state is unchanged.  And typing
`capacity + 10` times the key "a" from the empty buffer leaves 255 bytes in the
buffer, not 256. -/
theorem append_at_capacity_counterexample :
    (reachesDefault 0x62 ∧ 1 ≤ [98].length ∧ (∀ b ∈ [98], iscntrl b = false) ∧
      full255.len + [98].length ≤ sizeof_pass ∧
      step cryptId [] 0 [97] full255 (XEvent.KeyPress 0x62 [98]) = some full255 ∧
      (step cryptId [] 0 [97] full255 (XEvent.KeyPress 0x62 [98])).map PwState.entry
        ≠ some (full255.entry ++ [98])) ∧
    (∃ s, readpw cryptId [] 0 [97] (passOf []) (typeKeys manyKeys) = Loop.waiting s ∧
      s.len = 255 ∧ s.entry.length ≠ sizeof_pass) := by
  have hstep : step cryptId [] 0 [97] full255 (XEvent.KeyPress 0x62 [98]) = some full255 :=
    keyPress_default_no_room cryptId [97] full255 0x62 [98] (by decide) (by decide)
  refine ⟨⟨by decide, by decide, by decide, by decide, hstep, ?_⟩, ?_⟩
  · rw [hstep]
    intro h
    have hlen := congrArg List.length (Option.some.inj h)
    simp at hlen
  · obtain ⟨s, h1, h2, h3⟩ := readpwLoop_typeKeys cryptId [] 0 [97] manyKeys
      (readpwInit (passOf [])) rfl (by decide) (length_passOf _ (by decide)) manyKeys_printable
    refine ⟨s, h1, ?_, ?_⟩
    · rw [h2, length_manyKeys]
      decide
    · rw [h3]
      simp [readpwInit, PwState.entry, length_manyKeys, sizeof_pass]

/-- C6, amended: a key press that reaches the `default` label and delivers
`num ≥ 1` bytes, none a control character, with `len + num < 256` (at most 255:
a byte stays free for the terminator), appends them: the entry becomes the old
entry followed by the typed bytes, and nothing else changes.  Consequently
typing `capacity + 10` keys of one such byte each from the empty buffer leaves
exactly 255 bytes in the buffer, the first 255 typed. -/
theorem printable_input_appended_below_capacity (crypt : List Nat → List Nat → List Nat)
    (locks : List (Option Lock)) (nscreens : Nat) (pws : List Nat) (s : PwState)
    (ksym : Nat) (text : List Nat) (keys : List (Nat × Nat)) (pass0 : List Nat)
    (hd : reachesDefault ksym) (hnum : 1 ≤ text.length) (hctl : ∀ b ∈ text, iscntrl b = false)
    (hroom : s.len + text.length < sizeof_pass) (hpass : s.pass.length = sizeof_pass)
    (hkeys : ∀ k ∈ keys, reachesDefault k.1 ∧ iscntrl k.2 = false)
    (hmany : keys.length = sizeof_pass + 10) (hpass0 : pass0.length = sizeof_pass) :
    (∃ s1, step crypt locks nscreens pws s (XEvent.KeyPress ksym text) = some s1 ∧
      s1.entry = s.entry ++ text ∧ s1.len = s.len + text.length ∧
      s1.running = s.running ∧ s1.trace = s.trace) ∧
    (∃ s2, readpw crypt locks nscreens pws pass0 (typeKeys keys) = Loop.waiting s2 ∧
      s2.len = 255 ∧ s2.entry = (keys.map Prod.snd).take 255) := by
  constructor
  · have hc : iscntrl (text.headD 0) = false := by
      cases text with
      | nil => simp at hnum
      | cons b rest => exact hctl b (List.mem_cons_self b rest)
    refine ⟨_, keyPress_default_append crypt pws s ksym text hd hnum hc hroom, ?_, rfl, rfl, rfl⟩
    exact take_memcpy s.pass s.len text (by omega)
  · obtain ⟨s2, h1, h2, h3⟩ := readpwLoop_typeKeys crypt locks nscreens pws keys
      (readpwInit pass0) rfl (by simp [readpwInit, sizeof_pass]) hpass0 hkeys
    refine ⟨s2, h1, ?_, ?_⟩
    · rw [h2, hmany]
      simp [readpwInit, sizeof_pass]
    · rw [h3]
      simp [readpwInit, PwState.entry]

/-- The theorem above for "d" typed after "abc", and for 266 presses of "a". -/
theorem printable_input_appended_below_capacity_witness :
    (∃ s1, step cryptId [] 0 [97] typedAbc (XEvent.KeyPress 0x64 [100]) = some s1 ∧
      s1.entry = typedAbc.entry ++ [100] ∧ s1.len = typedAbc.len + [100].length ∧
      s1.running = typedAbc.running ∧ s1.trace = typedAbc.trace) ∧
    (∃ s2, readpw cryptId [] 0 [97] (passOf []) (typeKeys manyKeys) = Loop.waiting s2 ∧
      s2.len = 255 ∧ s2.entry = (manyKeys.map Prod.snd).take 255) :=
  printable_input_appended_below_capacity cryptId [] 0 [97] typedAbc 0x64 [100] manyKeys
    (passOf []) (by decide) (by decide) (by decide) (by decide) (length_passOf _ (by decide))
    manyKeys_printable length_manyKeys (length_passOf _ (by decide))

/-- C7, as stated, fails.  The key "a" pressed on the empty buffer with the
typed text "a" followed by the control character 1 is not dropped: both bytes
are appended. -/
theorem later_control_byte_counterexample :
    reachesDefault 0x61 ∧ 1 ≤ [97, 1].length ∧ (∃ b ∈ [97, 1], iscntrl b = true) ∧
    (readpwInit (passOf [])).len = 0 ∧
    (∃ s1, step cryptId [] 0 [97] (readpwInit (passOf [])) (XEvent.KeyPress 0x61 [97, 1])
        = some s1 ∧ s1.len = 2 ∧ s1.entry = [97, 1]) := by
  refine ⟨by decide, by decide, by decide, rfl, _,
    keyPress_default_append cryptId [97] (readpwInit (passOf [])) 0x61 [97, 1]
      (by decide) (by decide) (by decide) (by decide), rfl, ?_⟩
  exact take_memcpy (passOf []) 0 [97, 1] (Nat.zero_le _)

/-- C7, amended: a key press that reaches the `default` label and whose typed
text starts with a control character is dropped: the state of the loop, so the
contents and the length of the buffer, is unchanged. -/
theorem input_with_leading_control_dropped (crypt : List Nat → List Nat → List Nat)
    (locks : List (Option Lock)) (nscreens : Nat) (pws : List Nat) (s : PwState)
    (ksym : Nat) (b : Nat) (rest : List Nat) (hd : reachesDefault ksym)
    (hc : iscntrl b = true) :
    step crypt locks nscreens pws s (XEvent.KeyPress ksym (b :: rest)) = some s :=
  keyPress_default_cntrl crypt pws s ksym (b :: rest) hd hc

/-- The theorem above for the control character 1 followed by "a". -/
theorem input_with_leading_control_dropped_witness :
    step cryptId [] 0 [97] typedAbc (XEvent.KeyPress 0x61 (1 :: [97])) = some typedAbc :=
  input_with_leading_control_dropped cryptId [] 0 [97] typedAbc 0x61 1 [97]
    (by decide) (by decide)

/-! ## Enter with a wrong password, Escape, Backspace -/

/-- C9: whatever the state of the loop and the typed text, Escape sets `len`
to 0, so the entry buffer is empty, and changes nothing else: no call is made
(no bell, no `crypt`) and `running` is as before. -/
theorem escape_clears_buffer (crypt : List Nat → List Nat → List Nat)
    (locks : List (Option Lock)) (nscreens : Nat) (pws : List Nat) (s : PwState)
    (text : List Nat) :
    step crypt locks nscreens pws s (XEvent.KeyPress XK_Escape text)
      = some { pass := s.pass, len := 0, running := s.running, trace := s.trace } ∧
    PwState.entry { pass := s.pass, len := 0, running := s.running, trace := s.trace } = [] := by
  constructor
  · have h1 : ignored XK_Escape = false := by decide
    have h2 : XK_Escape ≠ XK_Return := by decide
    simp only [step, keyPress, normalise_XK_Escape, h1, h2, if_false, if_true,
      Bool.false_eq_true]
  · simp [PwState.entry]

/-- Dropping the last byte of the entry is taking one byte less of `pass`. -/
theorem dropLast_take (p : List Nat) (n : Nat) (h : n ≤ p.length) :
    (p.take n).dropLast = p.take (n - 1) := by
  rw [List.dropLast_eq_take, List.take_take, List.length_take]
  congr 1
  omega

/-- What Backspace does. -/
theorem keyPress_BackSpace (crypt : List Nat → List Nat → List Nat) (pws : List Nat)
    (s : PwState) (text : List Nat) :
    keyPress crypt pws s XK_BackSpace text =
      some { pass := s.pass, len := s.len - 1, running := s.running, trace := s.trace } := by
  have h1 : ignored XK_BackSpace = false := by decide
  have h2 : XK_BackSpace ≠ XK_Return := by decide
  have h3 : XK_BackSpace ≠ XK_Escape := by decide
  simp only [keyPress, normalise_XK_BackSpace, h1, h2, h3, if_false, if_true,
    Bool.false_eq_true]
  by_cases h : s.len = 0
  · cases s
    simp_all
  · simp [h]

/-- C10: Backspace lowers `len` by one when it is not 0 and leaves it at 0
otherwise, and changes nothing else; so the entry loses its last byte and keeps
the bytes before it, and on an empty buffer the state is unchanged.  After any
number of Backspace presses on an empty buffer `len` is still 0. -/
theorem backspace_removes_last (crypt : List Nat → List Nat → List Nat)
    (locks : List (Option Lock)) (nscreens : Nat) (pws : List Nat) (s : PwState)
    (text : List Nat) (texts : List (List Nat)) (hwf : s.len ≤ s.pass.length) :
    step crypt locks nscreens pws s (XEvent.KeyPress XK_BackSpace text)
      = some { pass := s.pass, len := s.len - 1, running := s.running, trace := s.trace } ∧
    PwState.entry { pass := s.pass, len := s.len - 1, running := s.running, trace := s.trace }
      = s.entry.dropLast ∧
    step crypt locks nscreens pws
        { pass := s.pass, len := 0, running := s.running, trace := s.trace }
        (XEvent.KeyPress XK_BackSpace text)
      = some { pass := s.pass, len := 0, running := s.running, trace := s.trace } ∧
    readpwLoop crypt locks nscreens pws (pressBackSpace texts)
        { pass := s.pass, len := 0, running := true, trace := s.trace }
      = Loop.waiting { pass := s.pass, len := 0, running := true,
                       trace := s.trace ++ List.replicate texts.length Call.XNextEvent } := by
  refine ⟨keyPress_BackSpace crypt pws s text, ?_,
    keyPress_BackSpace crypt pws
      { pass := s.pass, len := 0, running := s.running, trace := s.trace } text, ?_⟩
  · simp only [PwState.entry]
    exact (dropLast_take s.pass s.len hwf).symm
  · generalize s.trace = trace
    induction texts generalizing trace with
    | nil => simp [pressBackSpace, readpwLoop]
    | cons t ts ih =>
      simp only [pressBackSpace, List.map_cons, readpwLoop, if_true, step, keyPress_BackSpace]
      have h := ih (trace ++ [Call.XNextEvent])
      simp only [pressBackSpace] at h
      rw [h]
      simp [List.replicate_succ]

/-- The theorem above for Backspace after "abc" was typed. -/
theorem backspace_removes_last_witness :
    step cryptId [] 0 [97] typedAbc (XEvent.KeyPress XK_BackSpace [8])
      = some { pass := typedAbc.pass, len := typedAbc.len - 1, running := typedAbc.running,
               trace := typedAbc.trace } ∧
    PwState.entry { pass := typedAbc.pass, len := typedAbc.len - 1,
                    running := typedAbc.running, trace := typedAbc.trace }
      = typedAbc.entry.dropLast ∧
    step cryptId [] 0 [97]
        { pass := typedAbc.pass, len := 0, running := typedAbc.running, trace := typedAbc.trace }
        (XEvent.KeyPress XK_BackSpace [8])
      = some { pass := typedAbc.pass, len := 0, running := typedAbc.running,
               trace := typedAbc.trace } ∧
    readpwLoop cryptId [] 0 [97] (pressBackSpace [[8], [8]])
        { pass := typedAbc.pass, len := 0, running := true, trace := typedAbc.trace }
      = Loop.waiting { pass := typedAbc.pass, len := 0, running := true,
                       trace := typedAbc.trace ++ List.replicate [[8], [8]].length Call.XNextEvent } :=
  backspace_removes_last cryptId [] 0 [97] typedAbc [8] [[8], [8]]
    (by
      show 3 ≤ (passOf [97, 98, 99]).length
      rw [length_passOf _ (by decide)]
      decide)

/-! ## Keypad keys and ignored keys -/

/-- A key press acts through its normalised symbol only. -/
theorem keyPress_congr (crypt : List Nat → List Nat → List Nat) (pws : List Nat) (s : PwState)
    (k1 k2 : Nat) (text : List Nat) (h : normalise k1 = normalise k2) :
    keyPress crypt pws s k1 text = keyPress crypt pws s k2 text := by
  simp only [keyPress, h]

theorem normalise_KP_digit (d : Fin 10) : normalise (XK_KP_0 + d.val) = XK_0 + d.val := by
  revert d
  decide

theorem normalise_digit (d : Fin 10) : normalise (XK_0 + d.val) = XK_0 + d.val := by
  revert d
  decide

theorem normalise_XK_KP_Enter : normalise XK_KP_Enter = XK_Return := by decide

/-- C11: in every state of the loop and with every typed text, keypad Enter
gives the very same resulting state, calls included, as the main Enter key, and
keypad digit `d` the same as the main digit `d`. -/
theorem keypad_acts_as_main_keys (crypt : List Nat → List Nat → List Nat)
    (locks : List (Option Lock)) (nscreens : Nat) (pws : List Nat) (s : PwState)
    (text : List Nat) (d : Fin 10) :
    step crypt locks nscreens pws s (XEvent.KeyPress XK_KP_Enter text)
      = step crypt locks nscreens pws s (XEvent.KeyPress XK_Return text) ∧
    step crypt locks nscreens pws s (XEvent.KeyPress (XK_KP_0 + d.val) text)
      = step crypt locks nscreens pws s (XEvent.KeyPress (XK_0 + d.val) text) :=
  ⟨keyPress_congr crypt pws s XK_KP_Enter XK_Return text (by decide),
   keyPress_congr crypt pws s (XK_KP_0 + d.val) (XK_0 + d.val) text
     (by rw [normalise_KP_digit, normalise_digit])⟩

/-- C12, as stated, fails.  After normalisation keypad Enter is `XK_Return`,
which is no keypad key and is not ignored: pressed after "abc" was typed, with
the hash of "abc", it runs the comparison, clears `running` and empties the
buffer.  Keypad 1 is normalised to the digit 1 and its byte is appended. -/
theorem keypad_enter_not_dropped_counterexample :
    IsKeypadKey XK_KP_Enter = true ∧ IsKeypadKey (normalise XK_KP_Enter) = false ∧
    ignored (normalise XK_KP_Enter) = false ∧
    typedAbc.running = true ∧ typedAbc.len = 3 ∧ typedAbc.trace = [] ∧
    step cryptId [] 0 [97, 98, 99] typedAbc (XEvent.KeyPress XK_KP_Enter [13])
      = some { pass := typedAbc.pass.set 3 0, len := 0, running := false,
               trace := [Call.crypt [97, 98, 99]] } ∧
    IsKeypadKey (XK_KP_0 + 1) = true ∧ IsKeypadKey (normalise (XK_KP_0 + 1)) = false ∧
    (step cryptId [] 0 [97, 98, 99] typedAbc (XEvent.KeyPress (XK_KP_0 + 1) [49])).map
      PwState.len = some 4 := by
  have hstr : cstr (typedAbc.pass.set typedAbc.len 0) = [97, 98, 99] := by
    rw [cstr_set_terminator _ _ (by
      show 3 < (passOf [97, 98, 99]).length
      rw [length_passOf _ (by decide)]
      decide)]
    decide
  refine ⟨by decide, by decide, by decide, rfl, rfl, rfl, ?_, by decide, by decide, ?_⟩
  · rw [step, keyPress_Return cryptId [97, 98, 99] typedAbc XK_KP_Enter [13]
      normalise_XK_KP_Enter (by decide), hstr]
    simp [cryptId, typedAbc]
  · rw [step, keyPress_default_append cryptId [97, 98, 99] typedAbc (XK_KP_0 + 1) [49]
      (by decide) (by decide) (by decide) (by decide)]
    rfl

/-- C12, amended: a key press whose symbol is keypad Enter or a keypad digit
no longer passes the keypad-key test after normalisation and is not dropped by
the `continue`: keypad Enter reaches the Enter case, where `crypt` is called
and compared, and a keypad digit reaches the `default` label, where its text
is appended when the guard of that label holds. -/
theorem keypad_keys_pass_the_filter (crypt : List Nat → List Nat → List Nat)
    (locks : List (Option Lock)) (nscreens : Nat) (pws : List Nat) (s : PwState)
    (text : List Nat) (d : Fin 10) (hlen : s.len < sizeof_pass) :
    IsKeypadKey (normalise XK_KP_Enter) = false ∧ ignored (normalise XK_KP_Enter) = false ∧
    IsKeypadKey (normalise (XK_KP_0 + d.val)) = false ∧
    ignored (normalise (XK_KP_0 + d.val)) = false ∧
    step crypt locks nscreens pws s (XEvent.KeyPress XK_KP_Enter text) =
      some { pass := s.pass.set s.len 0, len := 0,
             running := decide (crypt (cstr (s.pass.set s.len 0)) pws ≠ pws),
             trace := s.trace ++ [Call.crypt (cstr (s.pass.set s.len 0))] ++
               (if crypt (cstr (s.pass.set s.len 0)) pws ≠ pws then [Call.XBell] else []) } ∧
    step crypt locks nscreens pws s (XEvent.KeyPress (XK_KP_0 + d.val) text) =
      (if text.length ≠ 0 ∧ iscntrl (text.headD 0) = false ∧ s.len + text.length < sizeof_pass then
        some { s with pass := memcpy s.pass s.len text text.length, len := s.len + text.length }
      else some s) := by
  have hd : ∀ d : Fin 10, IsKeypadKey (normalise (XK_KP_0 + d.val)) = false ∧
      ignored (normalise (XK_KP_0 + d.val)) = false ∧ reachesDefault (XK_KP_0 + d.val) := by
    decide
  exact ⟨by decide, by decide, (hd d).1, (hd d).2.1,
    keyPress_Return crypt pws s XK_KP_Enter text normalise_XK_KP_Enter hlen,
    keyPress_default crypt pws s (XK_KP_0 + d.val) text (hd d).2.2⟩

/-- The theorem above for keypad Enter and keypad 1 after "abc" was typed. -/
theorem keypad_keys_pass_the_filter_witness :
    IsKeypadKey (normalise XK_KP_Enter) = false ∧ ignored (normalise XK_KP_Enter) = false ∧
    IsKeypadKey (normalise (XK_KP_0 + (1 : Fin 10).val)) = false ∧
    ignored (normalise (XK_KP_0 + (1 : Fin 10).val)) = false ∧
    step cryptId [] 0 [97] typedAbc (XEvent.KeyPress XK_KP_Enter [49]) =
      some { pass := typedAbc.pass.set typedAbc.len 0, len := 0,
             running := decide (cryptId (cstr (typedAbc.pass.set typedAbc.len 0)) [97] ≠ [97]),
             trace := typedAbc.trace ++ [Call.crypt (cstr (typedAbc.pass.set typedAbc.len 0))] ++
               (if cryptId (cstr (typedAbc.pass.set typedAbc.len 0)) [97] ≠ [97]
                 then [Call.XBell] else []) } ∧
    step cryptId [] 0 [97] typedAbc (XEvent.KeyPress (XK_KP_0 + (1 : Fin 10).val) [49]) =
      (if [49].length ≠ 0 ∧ iscntrl ([49].headD 0) = false ∧
          typedAbc.len + [49].length < sizeof_pass then
        some { typedAbc with pass := memcpy typedAbc.pass typedAbc.len [49] [49].length,
                             len := typedAbc.len + [49].length }
      else some typedAbc) :=
  keypad_keys_pass_the_filter cryptId [] 0 [97] typedAbc [49] 1 (by decide)

/-- C13: a key press whose normalised symbol is a function key, a keypad key,
a miscellaneous function key, a PF key or a private keypad key leaves the
state of the loop exactly as it was, whatever its typed text: `pass`, `len`
and `running` are unchanged and no call is made (no bell, no `crypt`). -/
theorem ignored_keys_change_nothing (crypt : List Nat → List Nat → List Nat)
    (locks : List (Option Lock)) (nscreens : Nat) (pws : List Nat) (s : PwState)
    (ksym : Nat) (text : List Nat)
    (hclass : IsFunctionKey (normalise ksym) = true ∨ IsKeypadKey (normalise ksym) = true ∨
      IsMiscFunctionKey (normalise ksym) = true ∨ IsPFKey (normalise ksym) = true ∨
      IsPrivateKeypadKey (normalise ksym) = true) :
    step crypt locks nscreens pws s (XEvent.KeyPress ksym text) = some s := by
  have hign : ignored (normalise ksym) = true := by
    simp only [ignored, Bool.or_eq_true]
    tauto
  simp only [step, keyPress, hign, if_true]

/-- The theorem above for F1 pressed after "abc" was typed. -/
theorem ignored_keys_change_nothing_witness :
    step cryptId [] 0 [97] typedAbc (XEvent.KeyPress XK_F1 []) = some typedAbc :=
  ignored_keys_change_nothing cryptId [] 0 [97] typedAbc XK_F1 [] (Or.inl (by decide))

/-! ## The retry loops -/

/-- The retry loop, entered with the iterations it has left, is a search for
the first successful attempt. -/
theorem grabLoop_eq_find (grab : Nat → Bool) (call : Bool → Call) (fuel count : Nat)
    (h : fuel + count = grabLimit) :
    grabLoop grab call fuel count =
      match (List.range' count fuel).find? grab with
      | some k => (k, List.replicate (k - count) (call false) ++ [call true])
      | none => (grabLimit, List.replicate fuel (call false)) := by
  induction fuel generalizing count with
  | zero =>
    simp only [grabLoop, List.range', List.find?_nil, List.replicate_zero]
    rw [← h, Nat.zero_add]
  | succ n ih =>
    have hlt : count < grabLimit := by omega
    rw [grabLoop, if_pos hlt, List.range'_succ]
    by_cases hg : grab count = true
    · rw [if_pos hg, List.find?_cons_of_pos _ hg]
      simp
    · rw [if_neg hg, List.find?_cons_of_neg _ hg, ih (count + 1) (by omega)]
      cases hf : (List.range' (count + 1) n).find? grab with
      | none => simp [List.replicate_succ]
      | some k =>
        have hk := List.mem_of_find?_eq_some hf
        rw [List.mem_range'_1] at hk
        have hsub : k - count = (k - (count + 1)) + 1 := by omega
        simp only [hsub, List.replicate_succ, List.cons_append]

theorem grabLoop_eq (grab : Nat → Bool) (call : Bool → Call) :
    grabLoop grab call grabLimit 0 =
      match firstSuccess grab with
      | some k => (k, List.replicate k (call false) ++ [call true])
      | none => (grabLimit, List.replicate grabLimit (call false)) := by
  rw [grabLoop_eq_find grab call grabLimit 0 rfl, firstSuccess, List.range_eq_range']
  rfl

theorem firstSuccess_lt (grab : Nat → Bool) (k : Nat) (h : firstSuccess grab = some k) :
    k < grabLimit := by
  have hk := List.mem_of_find?_eq_some h
  simpa using hk

theorem firstSuccess_isSome_iff (grab : Nat → Bool) :
    (firstSuccess grab).isSome = true ↔ ∃ c, c < grabLimit ∧ grab c = true := by
  simp [firstSuccess]

theorem firstSuccess_eq_none_iff (grab : Nat → Bool) :
    firstSuccess grab = none ↔ ∀ c, c < grabLimit → grab c = false := by
  simp [firstSuccess]

theorem find_range'_eq_some_iff (grab : Nat → Bool) (s n k : Nat) :
    (List.range' s n).find? grab = some k ↔
      s ≤ k ∧ k < s + n ∧ grab k = true ∧ ∀ c, s ≤ c → c < k → grab c = false := by
  induction n generalizing s with
  | zero =>
    simp only [List.range', List.find?_nil]
    constructor
    · intro h
      cases h
    · intro h
      omega
  | succ m ih =>
    rw [List.range'_succ]
    by_cases hg : grab s = true
    · rw [List.find?_cons_of_pos _ hg]
      constructor
      · intro h
        cases h
        exact ⟨le_refl _, by omega, hg, fun c h1 h2 => by omega⟩
      · rintro ⟨h1, _, _, h4⟩
        by_cases hsk : s = k
        · rw [hsk]
        · have := h4 s (le_refl _) (by omega)
          rw [hg] at this
          cases this
    · rw [List.find?_cons_of_neg _ hg, ih (s + 1)]
      have hgf : grab s = false := by simpa using hg
      constructor
      · rintro ⟨h1, h2, h3, h4⟩
        refine ⟨by omega, by omega, h3, fun c hc1 hc2 => ?_⟩
        by_cases hcs : c = s
        · rw [hcs]
          exact hgf
        · exact h4 c (by omega) hc2
      · rintro ⟨h1, h2, h3, h4⟩
        have hne : s ≠ k := by
          intro hsk
          rw [hsk] at hgf
          rw [hgf] at h3
          cases h3
        exact ⟨by omega, by omega, h3, fun c hc1 hc2 => h4 c (by omega) hc2⟩

/-- What `firstSuccess` finds is the least successful attempt below the bound. -/
theorem firstSuccess_eq_some_iff (grab : Nat → Bool) (k : Nat) :
    firstSuccess grab = some k ↔
      k < grabLimit ∧ grab k = true ∧ ∀ c, c < k → grab c = false := by
  rw [firstSuccess, List.range_eq_range', find_range'_eq_some_iff]
  constructor
  · rintro ⟨_, h2, h3, h4⟩
    exact ⟨by omega, h3, fun c hc => h4 c (Nat.zero_le c) hc⟩
  · rintro ⟨h1, h2, h3⟩
    exact ⟨Nat.zero_le k, by omega, h2, fun c _ hc => h3 c hc⟩

/-! ## `lockscreen`, case by case -/

/-- With an open display, a screen index that is not negative and a successful
`malloc`, `lockscreen` creates and raises the window, asks for the pointer until
the first success, then for the keyboard until the first success, and selects
the input of the root; when either search fails it releases the lock and
returns the null pointer. -/
theorem lockscreen_eq (d : Display) (screen : Int) (hs : 0 ≤ screen) :
    lockscreen (some d) true screen =
      match firstSuccess (d.XGrabPointer screen), firstSuccess (d.XGrabKeyboard screen) with
      | some p, some k =>
        (some (lockOf d screen),
          [Call.XCreateWindow (d.RootWindow screen) (d.XCreateWindow screen),
            Call.XMapRaised (d.XCreateWindow screen)]
          ++ (List.replicate p (Call.XGrabPointer (d.RootWindow screen) false)
            ++ [Call.XGrabPointer (d.RootWindow screen) true])
          ++ (List.replicate k (Call.XGrabKeyboard (d.RootWindow screen) false)
            ++ [Call.XGrabKeyboard (d.RootWindow screen) true])
          ++ [Call.XSelectInput (d.RootWindow screen)])
      | some p, none =>
        (none,
          [Call.XCreateWindow (d.RootWindow screen) (d.XCreateWindow screen),
            Call.XMapRaised (d.XCreateWindow screen)]
          ++ (List.replicate p (Call.XGrabPointer (d.RootWindow screen) false)
            ++ [Call.XGrabPointer (d.RootWindow screen) true])
          ++ List.replicate grabLimit (Call.XGrabKeyboard (d.RootWindow screen) false)
          ++ unlockscreen (some d) (some (lockOf d screen)))
      | none, _ =>
        (none,
          [Call.XCreateWindow (d.RootWindow screen) (d.XCreateWindow screen),
            Call.XMapRaised (d.XCreateWindow screen)]
          ++ List.replicate grabLimit (Call.XGrabPointer (d.RootWindow screen) false)
          ++ []
          ++ unlockscreen (some d) (some (lockOf d screen))) := by
  unfold lockscreen
  simp only
  rw [if_neg (by omega), if_neg (by decide), grabLoop_eq, grabLoop_eq]
  cases hp : firstSuccess (d.XGrabPointer screen) with
  | none => simp [lockOf]
  | some p =>
    have hplt := firstSuccess_lt _ p hp
    cases hk : firstSuccess (d.XGrabKeyboard screen) with
    | none => simp [hplt, lockOf]
    | some k =>
      have hklt := firstSuccess_lt _ k hk
      simp [hplt, hklt, lockOf, Nat.not_le.mpr hklt]

/-- C15: with an open display, a screen index that is not negative and a
successful `malloc`, and for all answers of the server to the grab requests,
`lockscreen` returns the lock exactly when one of the first 10000 pointer
attempts succeeds and one of the first 10000 keyboard attempts succeeds, and
the null pointer otherwise.  It issues at most 10000 pointer and at most 10000
keyboard requests; the pointer requests are the failures before the first
success followed by that success (or 10000 failures), the keyboard requests
likewise when the pointer was obtained, and there is no keyboard request when
every pointer attempt fails. -/
theorem lockscreen_armed_iff_grabs_succeed (d : Display) (screen : Int) (hs : 0 ≤ screen) :
    ((lockscreen (some d) true screen).1 = some (lockOf d screen) ↔
      (∃ p, p < grabLimit ∧ d.XGrabPointer screen p = true) ∧
      (∃ k, k < grabLimit ∧ d.XGrabKeyboard screen k = true)) ∧
    ((lockscreen (some d) true screen).1 = none ↔
      ¬ ((∃ p, p < grabLimit ∧ d.XGrabPointer screen p = true) ∧
        (∃ k, k < grabLimit ∧ d.XGrabKeyboard screen k = true))) ∧
    (lockscreen (some d) true screen).2.countP Call.isGrabPointer ≤ grabLimit ∧
    (lockscreen (some d) true screen).2.countP Call.isGrabKeyboard ≤ grabLimit ∧
    (lockscreen (some d) true screen).2.filter Call.isGrabPointer =
      (match firstSuccess (d.XGrabPointer screen) with
       | some p => List.replicate p (Call.XGrabPointer (d.RootWindow screen) false)
           ++ [Call.XGrabPointer (d.RootWindow screen) true]
       | none => List.replicate grabLimit (Call.XGrabPointer (d.RootWindow screen) false)) ∧
    (lockscreen (some d) true screen).2.filter Call.isGrabKeyboard =
      (match firstSuccess (d.XGrabPointer screen), firstSuccess (d.XGrabKeyboard screen) with
       | some _, some k => List.replicate k (Call.XGrabKeyboard (d.RootWindow screen) false)
           ++ [Call.XGrabKeyboard (d.RootWindow screen) true]
       | some _, none => List.replicate grabLimit (Call.XGrabKeyboard (d.RootWindow screen) false)
       | none, _ => []) := by
  rw [lockscreen_eq d screen hs]
  have hpi := firstSuccess_isSome_iff (d.XGrabPointer screen)
  have hki := firstSuccess_isSome_iff (d.XGrabKeyboard screen)
  cases hp : firstSuccess (d.XGrabPointer screen) with
  | none =>
    rw [hp] at hpi
    have hno : ¬ ∃ p, p < grabLimit ∧ d.XGrabPointer screen p = true := by
      rw [← hpi]
      simp
    refine ⟨?_, ?_, ?_, ?_, ?_, ?_⟩
    · simp [hno]
    · simp [hno]
    · simp [List.countP_replicate, Call.isGrabPointer, unlockscreen]
    · simp [List.countP_replicate, Call.isGrabKeyboard, unlockscreen]
    · simp [List.filter_replicate, Call.isGrabPointer, unlockscreen]
    · simp [List.filter_replicate, Call.isGrabKeyboard, unlockscreen]
  | some p =>
    rw [hp] at hpi
    have hyes : ∃ p, p < grabLimit ∧ d.XGrabPointer screen p = true := hpi.mp rfl
    have hplt := firstSuccess_lt _ p hp
    cases hk : firstSuccess (d.XGrabKeyboard screen) with
    | none =>
      rw [hk] at hki
      have hno : ¬ ∃ k, k < grabLimit ∧ d.XGrabKeyboard screen k = true := by
        rw [← hki]
        simp
      refine ⟨?_, ?_, ?_, ?_, ?_, ?_⟩
      · simp [hno]
      · simp [hno]
      · simp [List.countP_replicate, Call.isGrabPointer, unlockscreen]
        omega
      · simp [List.countP_replicate, Call.isGrabKeyboard, unlockscreen]
      · simp [List.filter_replicate, Call.isGrabPointer, unlockscreen]
      · simp [List.filter_replicate, Call.isGrabKeyboard, unlockscreen]
    | some k =>
      rw [hk] at hki
      have hyes2 : ∃ k, k < grabLimit ∧ d.XGrabKeyboard screen k = true := hki.mp rfl
      have hklt := firstSuccess_lt _ k hk
      refine ⟨?_, ?_, ?_, ?_, ?_, ?_⟩
      · simp only [true_iff]
        exact ⟨hyes, hyes2⟩
      · simp only [reduceCtorEq, false_iff, not_not]
        exact ⟨hyes, hyes2⟩
      · simp [List.countP_replicate, Call.isGrabPointer]
        omega
      · simp [List.countP_replicate, Call.isGrabKeyboard]
        omega
      · simp [List.filter_replicate, Call.isGrabPointer]
      · simp [List.filter_replicate, Call.isGrabKeyboard]

/-- The theorem above for screen 0 of `partlyDisplay`. -/
theorem lockscreen_armed_iff_grabs_succeed_witness :
    ((lockscreen (some partlyDisplay) true 0).1 = some (lockOf partlyDisplay 0) ↔
      (∃ p, p < grabLimit ∧ partlyDisplay.XGrabPointer 0 p = true) ∧
      (∃ k, k < grabLimit ∧ partlyDisplay.XGrabKeyboard 0 k = true)) ∧
    ((lockscreen (some partlyDisplay) true 0).1 = none ↔
      ¬ ((∃ p, p < grabLimit ∧ partlyDisplay.XGrabPointer 0 p = true) ∧
        (∃ k, k < grabLimit ∧ partlyDisplay.XGrabKeyboard 0 k = true))) ∧
    (lockscreen (some partlyDisplay) true 0).2.countP Call.isGrabPointer ≤ grabLimit ∧
    (lockscreen (some partlyDisplay) true 0).2.countP Call.isGrabKeyboard ≤ grabLimit ∧
    (lockscreen (some partlyDisplay) true 0).2.filter Call.isGrabPointer =
      (match firstSuccess (partlyDisplay.XGrabPointer 0) with
       | some p => List.replicate p (Call.XGrabPointer (partlyDisplay.RootWindow 0) false)
           ++ [Call.XGrabPointer (partlyDisplay.RootWindow 0) true]
       | none => List.replicate grabLimit (Call.XGrabPointer (partlyDisplay.RootWindow 0) false)) ∧
    (lockscreen (some partlyDisplay) true 0).2.filter Call.isGrabKeyboard =
      (match firstSuccess (partlyDisplay.XGrabPointer 0),
          firstSuccess (partlyDisplay.XGrabKeyboard 0) with
       | some _, some k => List.replicate k (Call.XGrabKeyboard (partlyDisplay.RootWindow 0) false)
           ++ [Call.XGrabKeyboard (partlyDisplay.RootWindow 0) true]
       | some _, none =>
         List.replicate grabLimit (Call.XGrabKeyboard (partlyDisplay.RootWindow 0) false)
       | none, _ => []) :=
  lockscreen_armed_iff_grabs_succeed partlyDisplay 0 (by decide)

/-- C16: after the window is created (open display, screen index not negative,
successful `malloc`), `lockscreen` ends in one of two ways.  When it returns
the null pointer, its calls are the creation and raising of the window, grab
requests, and then one release of the lock: one pointer ungrab, one destroy of
the window, one `free`; the input of the root is not selected and the keyboard
was not obtained.  When it returns a lock, it is the lock of the window it
created, both grabs were answered with success, the input of the root was
selected once, and nothing was ungrabbed, destroyed or freed. -/
theorem lockscreen_all_or_nothing (d : Display) (screen : Int) (hs : 0 ≤ screen) :
    ((lockscreen (some d) true screen).1 = none ∧
      (∃ t, (lockscreen (some d) true screen).2 =
          [Call.XCreateWindow (d.RootWindow screen) (d.XCreateWindow screen),
            Call.XMapRaised (d.XCreateWindow screen)] ++ t
            ++ unlockscreen (some d) (some (lockOf d screen)) ∧
          ∀ c ∈ t, c.isGrabPointer = true ∨ c.isGrabKeyboard = true) ∧
      (lockscreen (some d) true screen).2.count Call.XUngrabPointer = 1 ∧
      (lockscreen (some d) true screen).2.count (Call.XDestroyWindow (d.XCreateWindow screen)) = 1 ∧
      (lockscreen (some d) true screen).2.count (Call.freeLock (lockOf d screen)) = 1 ∧
      (∀ root, Call.XSelectInput root ∉ (lockscreen (some d) true screen).2) ∧
      (∀ root, Call.XGrabKeyboard root true ∉ (lockscreen (some d) true screen).2)) ∨
    ((lockscreen (some d) true screen).1 = some (lockOf d screen) ∧
      Call.XCreateWindow (d.RootWindow screen) (d.XCreateWindow screen)
        ∈ (lockscreen (some d) true screen).2 ∧
      Call.XGrabPointer (d.RootWindow screen) true ∈ (lockscreen (some d) true screen).2 ∧
      Call.XGrabKeyboard (d.RootWindow screen) true ∈ (lockscreen (some d) true screen).2 ∧
      (lockscreen (some d) true screen).2.count (Call.XSelectInput (d.RootWindow screen)) = 1 ∧
      Call.XUngrabPointer ∉ (lockscreen (some d) true screen).2 ∧
      (∀ win, Call.XDestroyWindow win ∉ (lockscreen (some d) true screen).2) ∧
      (∀ l, Call.freeLock l ∉ (lockscreen (some d) true screen).2)) := by
  rw [lockscreen_eq d screen hs]
  cases hp : firstSuccess (d.XGrabPointer screen) with
  | none =>
    left
    simp only
    refine ⟨trivial, ⟨List.replicate grabLimit (Call.XGrabPointer (d.RootWindow screen) false),
      by simp only [List.append_nil], ?_⟩, ?_, ?_, ?_, ?_, ?_⟩
    · intro c hc
      simp only [List.mem_replicate] at hc
      left
      rw [hc.2]
      rfl
    · simp [List.count_cons, List.count_replicate, unlockscreen]
    · simp [List.count_cons, List.count_replicate, unlockscreen, lockOf]
    · simp [List.count_cons, List.count_replicate, unlockscreen]
    · simp [unlockscreen]
    · simp [unlockscreen]
  | some p =>
    cases hk : firstSuccess (d.XGrabKeyboard screen) with
    | none =>
      left
      simp only
      refine ⟨trivial, ⟨(List.replicate p (Call.XGrabPointer (d.RootWindow screen) false)
          ++ [Call.XGrabPointer (d.RootWindow screen) true])
          ++ List.replicate grabLimit (Call.XGrabKeyboard (d.RootWindow screen) false),
        by simp only [List.append_assoc], ?_⟩, ?_, ?_, ?_, ?_, ?_⟩
      · intro c hc
        simp only [List.mem_append, List.mem_replicate, List.mem_singleton] at hc
        rcases hc with (hc | hc) | hc
        · left
          rw [hc.2]
          rfl
        · left
          rw [hc]
          rfl
        · right
          rw [hc.2]
          rfl
      · simp [List.count_cons, List.count_replicate, unlockscreen]
      · simp [List.count_cons, List.count_replicate, unlockscreen, lockOf]
      · simp [List.count_cons, List.count_replicate, unlockscreen]
      · simp [unlockscreen]
      · simp [unlockscreen]
    | some k =>
      right
      simp only
      refine ⟨trivial, ?_, ?_, ?_, ?_, ?_, ?_, ?_⟩
      · simp
      · simp
      · simp
      · simp [List.count_cons, List.count_replicate]
      · simp
      · simp
      · simp

/-- The theorem above for screen 1 of `partlyDisplay`, where no pointer grab succeeds. -/
theorem lockscreen_all_or_nothing_witness :
    ((lockscreen (some partlyDisplay) true 1).1 = none ∧
      (∃ t, (lockscreen (some partlyDisplay) true 1).2 =
          [Call.XCreateWindow (partlyDisplay.RootWindow 1) (partlyDisplay.XCreateWindow 1),
            Call.XMapRaised (partlyDisplay.XCreateWindow 1)] ++ t
            ++ unlockscreen (some partlyDisplay) (some (lockOf partlyDisplay 1)) ∧
          ∀ c ∈ t, c.isGrabPointer = true ∨ c.isGrabKeyboard = true) ∧
      (lockscreen (some partlyDisplay) true 1).2.count Call.XUngrabPointer = 1 ∧
      (lockscreen (some partlyDisplay) true 1).2.count (Call.XDestroyWindow (partlyDisplay.XCreateWindow 1)) = 1 ∧
      (lockscreen (some partlyDisplay) true 1).2.count (Call.freeLock (lockOf partlyDisplay 1)) = 1 ∧
      (∀ root, Call.XSelectInput root ∉ (lockscreen (some partlyDisplay) true 1).2) ∧
      (∀ root, Call.XGrabKeyboard root true ∉ (lockscreen (some partlyDisplay) true 1).2)) ∨
    ((lockscreen (some partlyDisplay) true 1).1 = some (lockOf partlyDisplay 1) ∧
      Call.XCreateWindow (partlyDisplay.RootWindow 1) (partlyDisplay.XCreateWindow 1)
        ∈ (lockscreen (some partlyDisplay) true 1).2 ∧
      Call.XGrabPointer (partlyDisplay.RootWindow 1) true ∈ (lockscreen (some partlyDisplay) true 1).2 ∧
      Call.XGrabKeyboard (partlyDisplay.RootWindow 1) true ∈ (lockscreen (some partlyDisplay) true 1).2 ∧
      (lockscreen (some partlyDisplay) true 1).2.count (Call.XSelectInput (partlyDisplay.RootWindow 1)) = 1 ∧
      Call.XUngrabPointer ∉ (lockscreen (some partlyDisplay) true 1).2 ∧
      (∀ win, Call.XDestroyWindow win ∉ (lockscreen (some partlyDisplay) true 1).2) ∧
      (∀ l, Call.freeLock l ∉ (lockscreen (some partlyDisplay) true 1).2)) :=
  lockscreen_all_or_nothing partlyDisplay 1 (by decide)

/-! ## `main` once something is locked -/

/-- After the checks of the arguments, the password entry, the display and
`malloc`, and with at least one screen locked, `main` is the password loop
followed by the release of the locks. -/
theorem main_eq_of_locked (w : World) (pws : List Nat) (dpy : Display)
    (hargs : w.argv.length = 1) (hpw : getpw w.getpwuid w.getspnam = Except.ok pws)
    (hdpy : w.XOpenDisplay = some dpy) (hmalloc : w.mallocLocks = true)
    (hn : (lockScreens dpy w.mallocLock dpy.ScreenCount).2.1 ≠ 0) :
    main w =
      match readpw w.crypt (lockScreens dpy w.mallocLock dpy.ScreenCount).1 dpy.ScreenCount pws
          w.pass0 w.events with
      | Loop.fault => Outcome.fault (lockScreens dpy w.mallocLock dpy.ScreenCount).2.2
      | Loop.waiting s =>
        Outcome.blocked ((lockScreens dpy w.mallocLock dpy.ScreenCount).2.2 ++ s.trace)
      | Loop.returned s =>
        Outcome.exit 0 ((lockScreens dpy w.mallocLock dpy.ScreenCount).2.2 ++ s.trace
          ++ unlockScreens dpy (lockScreens dpy w.mallocLock dpy.ScreenCount).1 dpy.ScreenCount
          ++ [Call.freeLocks, Call.XCloseDisplay]) := by
  unfold main
  rw [if_neg (by rw [hargs]; simp), if_neg (by rw [hargs]; simp)]
  simp only [hpw, hdpy]
  rw [if_neg (by rw [hmalloc]; simp), if_neg hn]

/-! ## The locks after the acquisition loop, and their release -/

theorem armedCount_append (l1 l2 : List (Option Lock)) :
    armedCount (l1 ++ l2) = armedCount l1 + armedCount l2 := by
  induction l1 with
  | nil => simp [armedCount]
  | cons x rest ih =>
    cases x with
    | none => simpa [armedCount] using ih
    | some l =>
      show armedCount (rest ++ l2) + 1 = armedCount rest + 1 + armedCount l2
      rw [ih]
      omega

theorem releases_append (l1 l2 : List (Option Lock)) :
    releases (l1 ++ l2) = releases l1 ++ releases l2 := by
  induction l1 with
  | nil => simp [releases]
  | cons x rest ih =>
    cases x with
    | none => simpa [releases] using ih
    | some l => simp [releases, ih]

theorem length_lockScreens (dpy : Display) (mallocLock : Nat → Bool) (n : Nat) :
    (lockScreens dpy mallocLock n).1.length = n := by
  induction n with
  | zero => rfl
  | succ i ih => simp [lockScreens, ih]

/-- The counter `nlocks` is the number of armed entries of `locks`. -/
theorem nlocks_eq_armedCount (dpy : Display) (mallocLock : Nat → Bool) (n : Nat) :
    (lockScreens dpy mallocLock n).2.1 = armedCount (lockScreens dpy mallocLock n).1 := by
  induction n with
  | zero => rfl
  | succ i ih =>
    simp only [lockScreens, armedCount_append]
    cases h : (lockscreen (some dpy) (mallocLock i) (i : Int)).1 with
    | none => simp [armedCount, ih]
    | some l => simp [armedCount, ih]

theorem unlockscreen_eq_releases (dpy : Display) (lock : Option Lock) :
    unlockscreen (some dpy) lock = releases [lock] := by
  cases lock <;> simp [unlockscreen, releases]

/-- The loop that unlocks the screens releases the armed locks among the first
`i` entries, in their order. -/
theorem unlockScreens_eq_releases (dpy : Display) (locks : List (Option Lock)) (i : Nat)
    (hi : i ≤ locks.length) : unlockScreens dpy locks i = releases (locks.take i) := by
  induction i with
  | zero => simp [unlockScreens, releases]
  | succ j ih =>
    have hj : j < locks.length := hi
    rw [unlockScreens, ih (Nat.le_of_lt hj), List.take_succ, releases_append,
      unlockscreen_eq_releases, List.getD_eq_getElem?_getD, List.getElem?_eq_getElem hj]
    rfl

theorem count_ungrab_releases (locks : List (Option Lock)) :
    (releases locks).count Call.XUngrabPointer = armedCount locks := by
  induction locks with
  | nil => rfl
  | cons x rest ih =>
    cases x with
    | none => simpa [releases, armedCount] using ih
    | some l => simp [releases, armedCount, List.count_cons, ih]

theorem countP_destroy_releases (locks : List (Option Lock)) :
    (releases locks).countP Call.isDestroyWindow = armedCount locks := by
  induction locks with
  | nil => rfl
  | cons x rest ih =>
    cases x with
    | none => simpa [releases, armedCount] using ih
    | some l => simp [releases, armedCount, List.countP_cons, Call.isDestroyWindow, ih]

/-! ## The example displays -/

theorem partly_pointer_ok (screen : Int) (h : screen ≠ 1) :
    firstSuccess (partlyDisplay.XGrabPointer screen) = some 2 := by
  rw [firstSuccess_eq_some_iff]
  refine ⟨by decide, by simp [partlyDisplay, h], fun c hc => ?_⟩
  have hc2 : ¬ 2 ≤ c := by omega
  simp [partlyDisplay, hc2]

theorem partly_pointer_fails : firstSuccess (partlyDisplay.XGrabPointer 1) = none := by
  rw [firstSuccess_eq_none_iff]
  intro c _
  simp [partlyDisplay]

theorem partly_keyboard_ok (screen : Int) :
    firstSuccess (partlyDisplay.XGrabKeyboard screen) = some 0 := by
  rw [firstSuccess_eq_some_iff]
  exact ⟨by decide, rfl, fun c hc => absurd hc (Nat.not_lt_zero c)⟩

theorem lockscreen_fst_of_success (d : Display) (screen : Int) (p k : Nat) (hs : 0 ≤ screen)
    (hp : firstSuccess (d.XGrabPointer screen) = some p)
    (hk : firstSuccess (d.XGrabKeyboard screen) = some k) :
    (lockscreen (some d) true screen).1 = some (lockOf d screen) := by
  rw [lockscreen_eq d screen hs, hp, hk]

theorem lockscreen_of_pointer_none (d : Display) (screen : Int) (hs : 0 ≤ screen)
    (hp : firstSuccess (d.XGrabPointer screen) = none) :
    lockscreen (some d) true screen =
      (none,
        [Call.XCreateWindow (d.RootWindow screen) (d.XCreateWindow screen),
          Call.XMapRaised (d.XCreateWindow screen)]
        ++ List.replicate grabLimit (Call.XGrabPointer (d.RootWindow screen) false)
        ++ []
        ++ unlockscreen (some d) (some (lockOf d screen))) := by
  rw [lockscreen_eq d screen hs, hp]

theorem partly_locks :
    (lockScreens partlyDisplay partlyWorld.mallocLock partlyDisplay.ScreenCount).1
      = [some (lockOf partlyDisplay 0), none, some (lockOf partlyDisplay 2)] := by
  have h0 := lockscreen_fst_of_success partlyDisplay 0 2 0 (by decide)
    (partly_pointer_ok 0 (by decide)) (partly_keyboard_ok 0)
  have h1 := lockscreen_of_pointer_none partlyDisplay 1 (by decide) partly_pointer_fails
  have h2 := lockscreen_fst_of_success partlyDisplay 2 2 0 (by decide)
    (partly_pointer_ok 2 (by decide)) (partly_keyboard_ok 2)
  show [] ++ [(lockscreen (some partlyDisplay) true 0).1]
    ++ [(lockscreen (some partlyDisplay) true 1).1]
    ++ [(lockscreen (some partlyDisplay) true 2).1] = _
  rw [h0, h1, h2]
  rfl

theorem partly_nlocks :
    (lockScreens partlyDisplay partlyWorld.mallocLock partlyDisplay.ScreenCount).2.1 = 2 := by
  rw [nlocks_eq_armedCount, partly_locks]
  rfl

/-- C14, evaluated where the code departs from it.  On `partlyDisplay` the
acquisition leaves `locks = [lock 0, NULL, lock 2]` and `nlocks = 2`, so `main`
enters the password loop.  A non-key event then makes the raising loop read
`locks[1]->win` through the null pointer: the loop body has no result, and
neither has the run; the two armed windows are not "the only ones touched". -/
theorem raise_dereferences_absent_lock :
    (lockScreens partlyDisplay partlyWorld.mallocLock partlyDisplay.ScreenCount).1
      = [some (lockOf partlyDisplay 0), none, some (lockOf partlyDisplay 2)] ∧
    (lockScreens partlyDisplay partlyWorld.mallocLock partlyDisplay.ScreenCount).2.1 = 2 ∧
    raiseWindows [some (lockOf partlyDisplay 0), none, some (lockOf partlyDisplay 2)] 3 = none ∧
    step cryptId [some (lockOf partlyDisplay 0), none, some (lockOf partlyDisplay 2)] 3
      [97, 98, 99] (readpwInit (passOf [])) XEvent.Other = none ∧
    main partlyWorldOther = Outcome.fault
      (lockScreens partlyDisplay partlyWorld.mallocLock partlyDisplay.ScreenCount).2.2 := by
  refine ⟨partly_locks, partly_nlocks, rfl, rfl, ?_⟩
  have hn : (lockScreens partlyDisplay partlyWorld.mallocLock partlyDisplay.ScreenCount).2.1
      ≠ 0 := by
    rw [partly_nlocks]
    decide
  have hl : (lockScreens partlyDisplay partlyWorldOther.mallocLock partlyDisplay.ScreenCount).1
      = [some (lockOf partlyDisplay 0), none, some (lockOf partlyDisplay 2)] := partly_locks
  have hr : readpw partlyWorldOther.crypt
      [some (lockOf partlyDisplay 0), none, some (lockOf partlyDisplay 2)]
      partlyDisplay.ScreenCount [97, 98, 99] partlyWorldOther.pass0 partlyWorldOther.events
      = Loop.fault := rfl
  rw [main_eq_of_locked partlyWorldOther [97, 98, 99] partlyDisplay rfl rfl rfl rfl hn, hl, hr]
  rfl

/-! ## A failed screen after a locked one -/

/-- Typing "abc" and Enter on the empty buffer, when "abc" hashes to the stored
hash: the loop ends after one `crypt` call and no bell. -/
theorem readpw_abc_match (locks : List (Option Lock)) (nscreens : Nat) (pass0 : List Nat)
    (hpass0 : pass0.length = sizeof_pass) :
    ∃ s, readpw cryptId locks nscreens [97, 98, 99] pass0
        (typeKeys abcKeys ++ [NextEvent.delivered (XEvent.KeyPress XK_Return [13])])
        = Loop.returned s ∧
      s.running = false ∧
      s.trace = [Call.XNextEvent, Call.XNextEvent, Call.XNextEvent, Call.XNextEvent,
        Call.crypt [97, 98, 99]] := by
  obtain ⟨s1, h1, h2, h3, h4, h5, h6⟩ := readpwLoop_typeKeys_append cryptId locks nscreens
    [97, 98, 99] abcKeys (readpwInit pass0) rfl (by simp [readpwInit, sizeof_pass]) hpass0
    (by decide)
  have hentry : s1.entry = [97, 98, 99] := by
    rw [h3]
    simp [readpwInit, PwState.entry, abcKeys]
  have hlen1 : s1.len = 3 := by
    rw [h2]
    simp [readpwInit, abcKeys]
  have hstr : cstr [97, 98, 99] = [97, 98, 99] := by decide
  have hset : cstr (s1.pass.set s1.len 0) = [97, 98, 99] := by
    rw [cstr_set_terminator s1.pass s1.len (by rw [h5, hlen1]; decide)]
    show cstr s1.entry = _
    rw [hentry, hstr]
  have hkey := keyPress_Return cryptId [97, 98, 99]
    { pass := s1.pass, len := s1.len, running := true, trace := s1.trace ++ [Call.XNextEvent] }
    XK_Return [13] normalise_XK_Return (by simp [hlen1, sizeof_pass])
  simp only [hset, cryptId, ne_eq, not_true_eq_false, decide_False, if_false,
    List.append_nil] at hkey
  refine ⟨{ pass := s1.pass.set s1.len 0, len := 0, running := false,
            trace := s1.trace ++ [Call.XNextEvent] ++ [Call.crypt [97, 98, 99]] },
    ?_, rfl, ?_⟩
  · rw [readpw, h1]
    simp only [readpwLoop, h4, if_true, step]
    rw [hkey]
    rfl
  · simp only
    rw [h6]
    simp [readpwInit, abcKeys]

/-- C17: when at least one screen is locked and the password loop returns, in
particular by a matching Enter, `main` then releases exactly the armed locks,
each once and in the order of the screens (a pointer ungrab, a destroy of its
window, a `free`), none for an absent screen, frees `locks`, closes the display
and exits with status 0.  The number of ungrabs and the number of destroys are
both `nlocks`, the number of armed locks. -/
theorem teardown_releases_each_armed_lock (w : World) (pws : List Nat) (dpy : Display)
    (s : PwState) (hargs : w.argv.length = 1)
    (hpw : getpw w.getpwuid w.getspnam = Except.ok pws)
    (hdpy : w.XOpenDisplay = some dpy) (hmalloc : w.mallocLocks = true)
    (hk : 1 ≤ (lockScreens dpy w.mallocLock dpy.ScreenCount).2.1)
    (hloop : readpw w.crypt (lockScreens dpy w.mallocLock dpy.ScreenCount).1 dpy.ScreenCount pws
      w.pass0 w.events = Loop.returned s) :
    main w = Outcome.exit 0 ((lockScreens dpy w.mallocLock dpy.ScreenCount).2.2 ++ s.trace
      ++ releases (lockScreens dpy w.mallocLock dpy.ScreenCount).1
      ++ [Call.freeLocks, Call.XCloseDisplay]) ∧
    (releases (lockScreens dpy w.mallocLock dpy.ScreenCount).1).count Call.XUngrabPointer
      = (lockScreens dpy w.mallocLock dpy.ScreenCount).2.1 ∧
    (releases (lockScreens dpy w.mallocLock dpy.ScreenCount).1).countP Call.isDestroyWindow
      = (lockScreens dpy w.mallocLock dpy.ScreenCount).2.1 ∧
    armedCount (lockScreens dpy w.mallocLock dpy.ScreenCount).1
      = (lockScreens dpy w.mallocLock dpy.ScreenCount).2.1 := by
  refine ⟨?_, ?_, ?_, (nlocks_eq_armedCount dpy w.mallocLock dpy.ScreenCount).symm⟩
  · rw [main_eq_of_locked w pws dpy hargs hpw hdpy hmalloc (by omega), hloop]
    simp only
    rw [unlockScreens_eq_releases dpy _ _ (by rw [length_lockScreens]),
      List.take_of_length_le (by rw [length_lockScreens])]
  · rw [count_ungrab_releases, nlocks_eq_armedCount]
  · rw [countP_destroy_releases, nlocks_eq_armedCount]

/-- The theorem above for three screens of which screen 1 fails: "abc" and
Enter end the loop, and the teardown makes exactly two releases. -/
theorem teardown_releases_each_armed_lock_witness :
    ∃ s : PwState, (main partlyWorld = Outcome.exit 0
        ((lockScreens partlyDisplay partlyWorld.mallocLock partlyDisplay.ScreenCount).2.2
          ++ s.trace
          ++ releases (lockScreens partlyDisplay partlyWorld.mallocLock partlyDisplay.ScreenCount).1
          ++ [Call.freeLocks, Call.XCloseDisplay]) ∧
      (releases (lockScreens partlyDisplay partlyWorld.mallocLock
          partlyDisplay.ScreenCount).1).count Call.XUngrabPointer
        = (lockScreens partlyDisplay partlyWorld.mallocLock partlyDisplay.ScreenCount).2.1 ∧
      (releases (lockScreens partlyDisplay partlyWorld.mallocLock
          partlyDisplay.ScreenCount).1).countP Call.isDestroyWindow
        = (lockScreens partlyDisplay partlyWorld.mallocLock partlyDisplay.ScreenCount).2.1 ∧
      armedCount (lockScreens partlyDisplay partlyWorld.mallocLock partlyDisplay.ScreenCount).1
        = (lockScreens partlyDisplay partlyWorld.mallocLock partlyDisplay.ScreenCount).2.1) ∧
      s.running = false ∧
      (lockScreens partlyDisplay partlyWorld.mallocLock partlyDisplay.ScreenCount).2.1 = 2 ∧
      releases (lockScreens partlyDisplay partlyWorld.mallocLock partlyDisplay.ScreenCount).1
        = [Call.XUngrabPointer, Call.XDestroyWindow 100, Call.freeLock (lockOf partlyDisplay 0),
           Call.XUngrabPointer, Call.XDestroyWindow 102,
           Call.freeLock (lockOf partlyDisplay 2)] := by
  obtain ⟨s, hs, hrun, _⟩ := readpw_abc_match
    (lockScreens partlyDisplay partlyWorld.mallocLock partlyDisplay.ScreenCount).1
    partlyDisplay.ScreenCount (passOf []) (length_passOf _ (by decide))
  refine ⟨s, teardown_releases_each_armed_lock partlyWorld [97, 98, 99] partlyDisplay s
    rfl rfl rfl rfl (by rw [partly_nlocks]; decide) hs, hrun, partly_nlocks, ?_⟩
  rw [partly_locks]
  rfl

/-! ## Release of a null or of a released lock -/

/-- C20, as stated, fails.  The key "a" with the typed text "ab" is accepted on
the empty buffer, and the Backspace that follows leaves "a" in the buffer, not
the empty buffer of before. -/
theorem backspace_after_two_bytes_counterexample :
    reachesDefault 0x61 ∧ (readpwInit (passOf [])).len = 0 ∧
    (readpwInit (passOf [])).entry = [] ∧
    ∃ s1 s2 : PwState,
      step cryptId [] 0 [97] (readpwInit (passOf [])) (XEvent.KeyPress 0x61 [97, 98]) = some s1 ∧
      s1.entry = [97, 98] ∧
      step cryptId [] 0 [97] s1 (XEvent.KeyPress XK_BackSpace [8]) = some s2 ∧
      s2.len = 1 ∧ s2.entry = [97] := by
  refine ⟨by decide, rfl, rfl,
    { pass := memcpy (passOf []) 0 [97, 98] 2, len := 2, running := true, trace := [] },
    { pass := memcpy (passOf []) 0 [97, 98] 2, len := 1, running := true, trace := [] },
    keyPress_default_append cryptId [97] (readpwInit (passOf [])) 0x61 [97, 98]
      (by decide) (by decide) (by decide) (by decide), ?_,
    keyPress_BackSpace cryptId [97]
      { pass := memcpy (passOf []) 0 [97, 98] 2, len := 2, running := true, trace := [] } [8],
    rfl, ?_⟩
  · exact take_memcpy (passOf []) 0 [97, 98] (Nat.zero_le _)
  · show (memcpy (passOf []) 0 [97, 98] 2).take 1 = [97]
    rfl

/-- C20, amended: after a key press that the `default` label accepts, a
Backspace removes the last typed byte only: the buffer is the old contents
followed by all typed bytes but the last, and `len` is the old `len` plus
`num - 1`.  So the buffer is exactly as before the key press when the key
press delivered one byte. -/
theorem backspace_removes_last_typed_byte (crypt : List Nat → List Nat → List Nat)
    (locks : List (Option Lock)) (nscreens : Nat) (pws : List Nat) (s : PwState)
    (ksym : Nat) (text bs : List Nat) (hd : reachesDefault ksym) (hnum : 1 ≤ text.length)
    (hc : iscntrl (text.headD 0) = false) (hroom : s.len + text.length < sizeof_pass)
    (hpass : s.pass.length = sizeof_pass) :
    ∃ s1 s2 : PwState,
      step crypt locks nscreens pws s (XEvent.KeyPress ksym text) = some s1 ∧
      s1.entry = s.entry ++ text ∧
      step crypt locks nscreens pws s1 (XEvent.KeyPress XK_BackSpace bs) = some s2 ∧
      s2.entry = s.entry ++ text.dropLast ∧ s2.len = s.len + text.length - 1 ∧
      (text.length = 1 → s2.entry = s.entry ∧ s2.len = s.len) := by
  have hlenle : s.len ≤ s.pass.length := by omega
  have happ : (memcpy s.pass s.len text text.length).take (s.len + text.length)
      = s.entry ++ text := take_memcpy s.pass s.len text hlenle
  have hne : text ≠ [] := by
    intro h
    rw [h] at hnum
    simp at hnum
  have hdrop : (memcpy s.pass s.len text text.length).take (s.len + text.length - 1)
      = s.entry ++ text.dropLast := by
    rw [← dropLast_take _ _ (by
      rw [length_memcpy _ _ _ _ (le_refl _) (by omega)]
      omega), happ, List.dropLast_append_of_ne_nil _ hne]
  refine ⟨{ s with pass := memcpy s.pass s.len text text.length, len := s.len + text.length },
    { pass := memcpy s.pass s.len text text.length, len := s.len + text.length - 1,
      running := s.running, trace := s.trace },
    keyPress_default_append crypt pws s ksym text hd hnum hc hroom, happ,
    keyPress_BackSpace crypt pws
      { s with pass := memcpy s.pass s.len text text.length, len := s.len + text.length } bs,
    hdrop, rfl, ?_⟩
  intro h1
  constructor
  · show (memcpy s.pass s.len text text.length).take (s.len + text.length - 1) = s.entry
    rw [hdrop]
    cases text with
    | nil => simp at h1
    | cons b rest =>
      cases rest with
      | nil => simp
      | cons c r => simp at h1
  · show s.len + text.length - 1 = s.len
    omega

/-- The theorem above for "a" typed after "abc", then Backspace. -/
theorem backspace_removes_last_typed_byte_witness :
    ∃ s1 s2 : PwState,
      step cryptId [] 0 [97] typedAbc (XEvent.KeyPress 0x61 [97]) = some s1 ∧
      s1.entry = typedAbc.entry ++ [97] ∧
      step cryptId [] 0 [97] s1 (XEvent.KeyPress XK_BackSpace [8]) = some s2 ∧
      s2.entry = typedAbc.entry ++ [97].dropLast ∧ s2.len = typedAbc.len + [97].length - 1 ∧
      ([97].length = 1 → s2.entry = typedAbc.entry ∧ s2.len = typedAbc.len) :=
  backspace_removes_last_typed_byte cryptId [] 0 [97] typedAbc 0x61 [97] [8]
    (by decide) (by decide) (by decide) (by decide) (length_passOf _ (by decide))

/-! ## The password loop with an absent screen -/

/-- C2, evaluated where the code departs from it.  With
`locks = [lock 0, NULL, lock 2]`, the array that `main` passes on
`partlyDisplay`, the loop is running after "abc" was typed, and a non-key event
ends it: the raising loop reads `locks[1]->win` through the null pointer, so
the loop neither goes on waiting with `running` set, as the claim says of a
non-key event, nor stops by a matching Enter.  The same holds for the run of
`readpw` from the empty buffer on "abc" followed by the event.  With the two
locks alone the same event raises the two windows and the loop goes on.
`readpwLoop_one_event` shows that this is the only way for one event to end
the loop other than a matching Enter. -/
theorem non_key_event_with_absent_lock_ends_loop :
    typedAbc.running = true ∧
    readpwLoop cryptId [some (lockOf partlyDisplay 0), none, some (lockOf partlyDisplay 2)] 3
      [97, 98, 99] [NextEvent.delivered XEvent.Other] typedAbc = Loop.fault ∧
    readpw cryptId [some (lockOf partlyDisplay 0), none, some (lockOf partlyDisplay 2)] 3
      [97, 98, 99] (passOf []) (typeKeys abcKeys ++ [NextEvent.delivered XEvent.Other])
      = Loop.fault ∧
    readpwLoop cryptId [some (lockOf partlyDisplay 0), some (lockOf partlyDisplay 2)] 2
      [97, 98, 99] [NextEvent.delivered XEvent.Other] typedAbc
      = Loop.waiting { pass := typedAbc.pass, len := 3, running := true,
                       trace := [Call.XNextEvent, Call.XRaiseWindow 100,
                         Call.XRaiseWindow 102] } := by
  refine ⟨rfl, rfl, ?_, rfl⟩
  obtain ⟨s1, h1, _, _, h4, _, _⟩ := readpwLoop_typeKeys_append cryptId
    [some (lockOf partlyDisplay 0), none, some (lockOf partlyDisplay 2)] 3 [97, 98, 99]
    abcKeys (readpwInit (passOf [])) rfl (by decide) (length_passOf _ (by decide)) (by decide)
  rw [readpw, h1]
  simp only [readpwLoop, h4, if_true, step]
  rfl

end Slock
